import Mathlib

/-! Verification of sxlock: the lock-session controller and the pixel helpers.

A shallow embedding of `sxlock.c`.  Bytes of `char` / `uint8_t` objects are
natural numbers below 256, C `int` values are integers, stateful code is
written in state-passing style over records that mirror the globals and the
locals of the C functions.  Calls into X11, PAM and libc are recorded in an
effect trace; what they return is supplied from outside (an event list, a
random stream, allocator and verifier outcomes).
-/

set_option maxRecDepth 100000

namespace Sxlock

/-! ## Constants of the external headers -/

/-- The value of `sizeof(password)` for `static char password[256]`. -/
def PASSWORD_SIZE : Nat := 256

/-- Keysym `XK_BackSpace` of X11/keysymdef.h. -/
def XK_BackSpace : Nat := 0xff08
/-- Keysym `XK_Return` of X11/keysymdef.h. -/
def XK_Return : Nat := 0xff0d
/-- Keysym `XK_Escape` of X11/keysymdef.h. -/
def XK_Escape : Nat := 0xff1b
/-- Keysym `XK_KP_Enter` of X11/keysymdef.h. -/
def XK_KP_Enter : Nat := 0xff8d

/-- Return code `PAM_SUCCESS` of security/_pam_types.h. -/
def PAM_SUCCESS : Int := 0
/-- Return code `PAM_BUF_ERR` of security/_pam_types.h. -/
def PAM_BUF_ERR : Int := 5
/-- Message style `PAM_PROMPT_ECHO_OFF`. -/
def PAM_PROMPT_ECHO_OFF : Int := 1
/-- Message style `PAM_PROMPT_ECHO_ON`. -/
def PAM_PROMPT_ECHO_ON : Int := 2
/-- Message style `PAM_ERROR_MSG`. -/
def PAM_ERROR_MSG : Int := 3
/-- Message style `PAM_TEXT_INFO`. -/
def PAM_TEXT_INFO : Int := 4

/-- The value of `EXIT_FAILURE`. -/
def EXIT_FAILURE : Nat := 1

/-- The libc `isprint` in the "C" locale (the program never calls `setlocale`):
the printable characters are 0x20 .. 0x7e. -/
def isprint (c : Nat) : Bool := decide (32 ≤ c) && decide (c ≤ 126)

/-- The C string that starts at the beginning of a byte buffer: the bytes before
the first NUL. -/
def cstring (buf : List Nat) : List Nat := buf.takeWhile (fun b => b ≠ 0)

/-! ## Globals and effects -/

/-- The record `struct Dpms`. -/
structure Dpms where
  state : Bool
  level : Nat
  standby : Nat
  suspend : Nat
  off : Nat
deriving DecidableEq, Repr

/-- Calls that leave the program, in the order they are made. -/
inductive Effect where
  | DPMSSetTimeouts (standby suspend off : Nat)
  | DPMSDisable
  | DPMSForceLevelOff
  | pam_authenticate (pw : List Nat)
  | clear_password_memory
  | redraw (failed : Bool) (len : Nat)
  | swap_failed
  | fprintf_stderr
  | exit (status : Nat)
deriving DecidableEq, Repr

/-- The globals the modelled functions touch: `password`, `using_dpms`,
`dpms_original`, the number of `rand()` calls made so far, the effect trace
(oldest first) and the exit status once `exit` has been called. -/
structure Globals where
  password : List Nat
  using_dpms : Bool
  dpms_original : Dpms
  rand_calls : Nat
  trace : List Effect
  exit_status : Option Nat
deriving DecidableEq, Repr

/-- Initial value of `dpms_original` in the source. -/
def dpms_default : Dpms :=
  { state := true, level := 0, standby := 600, suspend := 600, off := 600 }

/-- The globals at program start: `password` is zero-initialised static storage. -/
def globals_init : Globals :=
  { password := List.replicate PASSWORD_SIZE 0, using_dpms := false,
    dpms_original := dpms_default, rand_calls := 0, trace := [], exit_status := none }

/-- Record one effect. -/
def Globals.emit (g : Globals) (e : Effect) : Globals :=
  { g with trace := g.trace ++ [e] }

/-- The function `die`: message on stderr, then `exit(EXIT_FAILURE)`. -/
def die (g : Globals) : Globals :=
  { (g.emit Effect.fprintf_stderr).emit (Effect.exit EXIT_FAILURE) with
    exit_status := some EXIT_FAILURE }

/-- The loop of `clear_password_memory`, `n` iterations starting at index `c`:
`vpassword[c] = rand()`, the `int` result truncated to one byte. -/
def clear_password_from (rand : Nat → Nat) (g : Globals) (c : Nat) : Nat → Globals
  | 0 => g
  | n + 1 =>
    clear_password_from rand
      { g with password := g.password.set c (rand g.rand_calls % 256),
               rand_calls := g.rand_calls + 1 } (c + 1) n

/-- The function `clear_password_memory`: `c` runs over `0 .. sizeof(password) - 1`. -/
def clear_password_memory (rand : Nat → Nat) (g : Globals) : Globals :=
  clear_password_from rand (g.emit Effect.clear_password_memory) 0 PASSWORD_SIZE

/-- The function `handle_signal`: restore the DPMS settings, then `die`. -/
def handle_signal (g : Globals) (_sig : Int) : Globals :=
  let g1 :=
    if g.using_dpms then
      let g2 := g.emit (Effect.DPMSSetTimeouts g.dpms_original.standby
        g.dpms_original.suspend g.dpms_original.off)
      if !g.dpms_original.state then g2.emit Effect.DPMSDisable else g2
    else g
  die g1

/-! ## The event loop of `main_loop` -/

/-- What `main_loop` looks at in an `XEvent`: its type, and for a key press the
keysym and the one-byte buffer `inputChar` filled by `XLookupString`. -/
inductive XEvent where
  | MotionNotify
  | KeyPress (ksym : Nat) (inputChar : Nat)
  | other
deriving DecidableEq, Repr

/-- Everything one loop iteration receives from outside: the event returned by
`XNextEvent`, whether `XPending` reports queued events, whether
`XdbeSwapBuffers` succeeds, and whether `pam_authenticate` (if it is called in
this iteration) returns `PAM_SUCCESS`. -/
structure Input where
  event : XEvent
  pending : Bool
  swap_ok : Bool
  pam_success : Bool
deriving DecidableEq, Repr

/-- The globals together with the locals `len`, `running`, `sleepmode`, `failed`
of `main_loop`; `returned` is set when the function has returned early. -/
structure LoopState where
  g : Globals
  len : Nat
  running : Bool
  sleepmode : Bool
  failed : Bool
  returned : Bool
deriving DecidableEq, Repr

/-- The `switch (ksym)` of the key-press branch, after `sleepmode` and `failed`
have been reset. -/
def key_switch (rand : Nat → Nat) (s : LoopState) (ksym inputChar : Nat)
    (pam_success : Bool) : LoopState :=
  if ksym = XK_Return ∨ ksym = XK_KP_Enter then
    -- password[len] = 0;
    let g1 := { s.g with password := s.g.password.set s.len 0 }
    let g2 := g1.emit (Effect.pam_authenticate (cstring g1.password))
    if pam_success then
      { s with g := clear_password_memory rand g2, running := false, len := 0 }
    else
      { s with g := g2, failed := true, len := 0 }
  else if ksym = XK_Escape then
    { s with len := 0, sleepmode := true }
  else if ksym = XK_BackSpace then
    if s.len ≠ 0 then { s with len := s.len - 1 } else s
  else
    if isprint inputChar && decide (s.len + 1 < PASSWORD_SIZE) then
      { s with g := { s.g with password := s.g.password.set s.len inputChar },
               len := s.len + 1 }
    else s

/-- The two `if (event.type == ...)` blocks at the end of the loop body. -/
def handle_event (rand : Nat → Nat) (s : LoopState) (i : Input) : LoopState :=
  match i.event with
  | XEvent.MotionNotify => { s with sleepmode := false, failed := false }
  | XEvent.KeyPress ksym inputChar =>
    key_switch rand { s with sleepmode := false, failed := false } ksym inputChar
      i.pam_success
  | XEvent.other => s

/-- One iteration of the `while` body: force DPMS off in sleep mode, redraw and
swap when nothing is pending (a failed swap returns from `main_loop`), then
handle the event. -/
def main_loop_body (rand : Nat → Nat) (s : LoopState) (i : Input) : LoopState :=
  let s1 :=
    if s.sleepmode && s.g.using_dpms then { s with g := s.g.emit Effect.DPMSForceLevelOff }
    else s
  if !i.pending then
    let s2 := { s1 with g := s1.g.emit (Effect.redraw s1.failed s1.len) }
    if !i.swap_ok then
      { s2 with g := (s2.g.emit Effect.swap_failed).emit Effect.fprintf_stderr,
                returned := true }
    else handle_event rand s2 i
  else handle_event rand s1 i

/-- The `while (running && !XNextEvent(dpy, &event))` loop over the events that
arrive; `XNextEvent` blocks and returns 0. -/
def main_loop_run (rand : Nat → Nat) : LoopState → List Input → LoopState
  | s, [] => s
  | s, i :: rest =>
    if s.running && !s.returned then main_loop_run rand (main_loop_body rand s i) rest
    else s

/-- The locals of `main_loop` when the loop is entered. -/
def loop_init (g : Globals) : LoopState :=
  { g := g, len := 0, running := true, sleepmode := false, failed := false,
    returned := false }

/-- The function `main_loop`: the first `XdbeSwapBuffers` may already fail, in which
case the function returns before the loop. -/
def main_loop (rand : Nat → Nat) (g : Globals) (first_swap_ok : Bool)
    (inputs : List Input) : LoopState :=
  if !first_swap_ok then
    { loop_init ((g.emit Effect.swap_failed).emit Effect.fprintf_stderr) with
      returned := true }
  else main_loop_run rand (loop_init g) inputs

/-! ## The PAM conversation callback -/

/-- One entry of the response array, `struct pam_response`; `resp = none` is the
NULL pointer. -/
structure pam_response where
  resp : Option (List Nat)
  resp_retcode : Int
deriving DecidableEq, Repr

/-- What a call of `conv_callback` does: it returns a code, with the array left in
`*resp` when there is one (`none`: not allocated, or freed again), or it
leaves defined behaviour. -/
inductive ConvOutcome where
  | returned (code : Int) (resp : Option (List pam_response))
  | undefined
deriving DecidableEq, Repr

/-- The `for` loop of `conv_callback` from index `i` on, over the styles of the
remaining messages.  The parameter `resp` of the C function points to the one
`struct pam_response *` object of the caller, so `resp[i]->...` is the entry 0
of the array for `i = 0` and an access outside that object for `i > 0`.
`strdup(password)` reads up to the first NUL of `password`. -/
def conv_loop (password : List Nat) (strdup_ok : Nat → Bool) :
    List Int → Nat → List pam_response → ConvOutcome
  | [], _, arr => ConvOutcome.returned PAM_SUCCESS (some arr)
  | style :: rest, i, arr =>
    if style ≠ PAM_PROMPT_ECHO_OFF ∧ style ≠ PAM_PROMPT_ECHO_ON then
      conv_loop password strdup_ok rest (i + 1) arr
    else if i ≠ 0 then ConvOutcome.undefined
    else if 0 ∉ password then ConvOutcome.undefined
    else if strdup_ok i then
      conv_loop password strdup_ok rest (i + 1)
        (arr.set 0 { resp := some (cstring password), resp_retcode := 0 })
    else ConvOutcome.returned PAM_BUF_ERR none

/-- The function `conv_callback`; `msg` lists the `msg_style` of the `num_msgs`
messages, `calloc_ok` and `strdup_ok i` say whether the allocations succeed.
`calloc` zero-fills: every entry starts as NULL / 0. -/
def conv_callback (password : List Nat) (calloc_ok : Bool) (strdup_ok : Nat → Bool)
    (msg : List Int) : ConvOutcome :=
  if msg.length = 0 then ConvOutcome.returned PAM_BUF_ERR none
  else if !calloc_ok then ConvOutcome.returned PAM_BUF_ERR none
  else
    conv_loop password strdup_ok msg 0
      (List.replicate msg.length { resp := none, resp_retcode := 0 })

/-! ## Pixel helpers of the corruption pass -/

/-- The 32-bit two's complement value of the result of an `int` operation. -/
def to_int32 (z : Int) : Int := (z + 2147483648) % 4294967296 - 2147483648

/-- Smallest value of a C `int`. -/
def INT_MIN : Int := -2147483648
/-- Largest value of a C `int`. -/
def INT_MAX : Int := 2147483647

/-- The function `wrap` on `int` arguments. -/
def wrap (x b : Int) : Int :=
  if x < 0 then to_int32 (x + b)
  else if x ≥ b then to_int32 (x - b)
  else x

/-- Two to the power 32, the modulus of `uint32_t` arithmetic. -/
def UINT32_MOD : Nat := 4294967296

/-- The function `brighten`: `r32 - r32*add32/255 + add32` in `uint32_t`
arithmetic, then the cast to `uint8_t`. -/
def brighten (r add : Nat) : Nat :=
  let r32 := r % UINT32_MOD
  let add32 := add % UINT32_MOD
  let q := (r32 * add32 % UINT32_MOD) / 255
  let d := (r32 + UINT32_MOD - q) % UINT32_MOD
  ((d + add32) % UINT32_MOD) % 256

/-! ## Reference models that follow the wording of the specification -/

/-- The two operations of the credential buffer that typing performs. -/
inductive BufOp where
  | append (c : Nat)
  | backspace
deriving DecidableEq, Repr

/-- Reference stack model: append pushes the character unless 255 characters are
already held, backspace pops the last character if any. -/
def spec_stack_step (st : List Nat) : BufOp → List Nat
  | BufOp.append c => if st.length < 255 then st ++ [c] else st
  | BufOp.backspace => st.dropLast

/-- The reference stack after a sequence of operations on the empty stack. -/
def spec_stack (ops : List BufOp) : List Nat := ops.foldl spec_stack_step []

/-- Number of appends in a sequence of operations. -/
def count_appends (ops : List BufOp) : Nat :=
  (ops.filter (fun o => decide (o ≠ BufOp.backspace))).length

/-- Number of backspaces in a sequence of operations. -/
def count_backspaces (ops : List BufOp) : Nat :=
  (ops.filter (fun o => decide (o = BufOp.backspace))).length

/-- The length formula of the specification: max(0, appends - backspaces), clipped
to the capacity `cap`. -/
def spec_length_formula (cap : Nat) (ops : List BufOp) : Int :=
  min (max 0 ((count_appends ops : Int) - (count_backspaces ops : Int))) (cap : Int)

/-- One operation on the length with clipping applied at once: an append adds one
unless 255 is reached, a backspace takes one away unless the length is 0. -/
def length_step (n : Nat) : BufOp → Nat
  | BufOp.append _ => if n < 255 then n + 1 else n
  | BufOp.backspace => n - 1

/-- The length when clipping is applied after every operation. -/
def stepwise_length (ops : List BufOp) : Nat := ops.foldl length_step 0

/-- The buffer operation an input performs, for the inputs that are typing: a
BackSpace key, or a key outside the four special keysyms with a printable
character. -/
def typing_op (i : Input) : Option BufOp :=
  match i.event with
  | XEvent.KeyPress ksym c =>
    if ksym = XK_BackSpace then some BufOp.backspace
    else if ksym ≠ XK_Return ∧ ksym ≠ XK_KP_Enter ∧ ksym ≠ XK_Escape ∧ isprint c = true then
      some (BufOp.append c)
    else none
  | _ => none

/-- A key press whose frame, if one is drawn, is presented: the event reaches the
`switch`. -/
def Input.reaches_switch (i : Input) : Bool := i.pending || i.swap_ok

/-- The first `len` bytes of `password` are the reference stack `st`, and the loop
is still running: the relation between the code and the reference model. -/
def Refines (s : LoopState) (st : List Nat) : Prop :=
  s.g.password.take s.len = st ∧ s.len = st.length ∧
  s.g.password.length = PASSWORD_SIZE ∧ s.len ≤ 255 ∧
  s.running = true ∧ s.returned = false

/-- A key-press input with nothing else going on (events pending, verifier failing). -/
def key (ksym c : Nat) : Input :=
  { event := XEvent.KeyPress ksym c, pending := true, swap_ok := true, pam_success := false }

/-! ## The noise table -/

/-- The value of the macro `NUM_RAND_FLOATS`, the size of the table in the source. -/
def NUM_RAND_FLOATS : Nat := 15000000

/-- The table `rnjesus` together with the cursor, the static local `start` of
`nrandf`.  The samples are kept abstract (type `α`); the table size is the
length of the list. -/
structure NoiseTable (α : Type) where
  rnjesus : List α
  start : Nat
deriving DecidableEq, Repr

/-- The table with the cursor as initialised by `static int start = 0`. -/
def noise_init {α : Type} (table : List α) : NoiseTable α :=
  { rnjesus := table, start := 0 }

/-- The function `nrandf`: advance the cursor modulo the table size, then return
the sample under it (`none` would be a read outside the table). -/
def nrandf {α : Type} (t : NoiseTable α) : Option α × NoiseTable α :=
  let start := (t.start + 1) % t.rnjesus.length
  (t.rnjesus[start]?, { t with start := start })

/-- The table and cursor after `k` calls of `nrandf`. -/
def nrandf_state {α : Type} (t : NoiseTable α) : Nat → NoiseTable α
  | 0 => t
  | k + 1 => (nrandf (nrandf_state t k)).2

/-- The value returned by call number `k` of `nrandf` (calls are counted from 1). -/
def nrandf_call {α : Type} (t : NoiseTable α) (k : Nat) : Option α :=
  (nrandf (nrandf_state t (k - 1))).1

/-! ## The password indicator -/

/-- The value of a `char` object holding byte `b`, after the conversion to
`unsigned int` that the multiplication by the `unsigned int len` applies.
Where `char` is signed (`char_signed`), bytes from 128 on are negative and
convert to 2^32 - 256 + b. -/
def char_to_uint (char_signed : Bool) (b : Nat) : Nat :=
  if char_signed && decide (128 ≤ b) then UINT32_MOD - 256 + b else b

/-- The local `lendisp` of the redraw block of `main_loop` for a frame that shows
the indicator: `len`, plus `(passdisp[len] * len) % 5` in `unsigned int`
arithmetic when `hidelength` is set and `len > 0`.  The result is `none` when
`passdisp[len]` would be read outside the buffer. -/
def lendisp (char_signed hidelength : Bool) (passdisp : List Nat) (len : Nat) : Option Nat :=
  if hidelength && decide (len > 0) then
    match passdisp[len]? with
    | some b => some (len + (char_to_uint char_signed b * len % UINT32_MOD) % 5)
    | none => none
  else some len

/-- The number of characters of `passdisp` that `XDrawString` is asked to draw:
`lendisp % 256`. -/
def drawn_glyphs (char_signed hidelength : Bool) (passdisp : List Nat) (len : Nat) :
    Option Nat :=
  match lendisp char_signed hidelength passdisp len with
  | some n => some (n % 256)
  | none => none

/-- The inner loop of the fill of `passdisp` in `main`, `n` iterations from `j`:
`passdisp[i + j] = opt_passchar[j]` while `j < strlen(opt_passchar)` and
`i + j < sizeof(passdisp)`. -/
def fill_inner (opt_passchar : List Nat) (i : Nat) : Nat → Nat → List Nat → List Nat
  | 0, _, passdisp => passdisp
  | n + 1, j, passdisp =>
    if j < opt_passchar.length ∧ i + j < 256 then
      fill_inner opt_passchar i n (j + 1) (passdisp.set (i + j) (opt_passchar.getD j 0))
    else passdisp

/-- The outer loop of the fill of `passdisp` in `main`, at most `n` iterations from
`i`, with `i += strlen(opt_passchar)`. -/
def fill_outer (opt_passchar : List Nat) : Nat → Nat → List Nat → List Nat
  | 0, _, passdisp => passdisp
  | n + 1, i, passdisp =>
    if i < 256 then
      fill_outer opt_passchar n (i + opt_passchar.length)
        (fill_inner opt_passchar i opt_passchar.length 0 passdisp)
    else passdisp

/-- The buffer `passdisp` after the fill loop of `main`, for a non-empty
`opt_passchar` (256 outer iterations are then enough to reach the end). -/
def fill_passdisp (opt_passchar : List Nat) (passdisp : List Nat) : List Nat :=
  fill_outer opt_passchar 256 0 passdisp

/-! ## The corruption passes of `corrupt_it`

Every `int` operation of the index computations is reduced to 32-bit two's
complement (`to_int32`).  What the code derives from the noise table and from
`rand()` with floating point (the rounded offsets, the rounded channel lags,
whether a block starts) is supplied from outside, per pixel. -/

/-- The three byte buffers `corrupt_it` works on; `src` and `dst` of the source are
variables ranging over these. -/
inductive BufId where
  | real_src
  | buf1
  | buf2
deriving DecidableEq, Repr

/-- The contents of the three buffers. -/
structure Bufs where
  real_src : List Nat
  buf1 : List Nat
  buf2 : List Nat
deriving DecidableEq, Repr

/-- The buffer a pointer variable refers to. -/
def Bufs.get (m : Bufs) : BufId → List Nat
  | BufId.real_src => m.real_src
  | BufId.buf1 => m.buf1
  | BufId.buf2 => m.buf2

/-- Replace the buffer a pointer variable refers to. -/
def Bufs.put (m : Bufs) (p : BufId) (b : List Nat) : Bufs :=
  match p with
  | BufId.real_src => { m with real_src := b }
  | BufId.buf1 => { m with buf1 := b }
  | BufId.buf2 => { m with buf2 := b }

/-- The read `p[idx]`; `none` outside the buffer. -/
def load (m : Bufs) (p : BufId) (idx : Int) : Option Nat :=
  if idx < 0 then none else (m.get p)[idx.toNat]?

/-- The write `p[idx] = v`; `none` outside the buffer. -/
def store (m : Bufs) (p : BufId) (idx : Int) (v : Nat) : Option Bufs :=
  if idx < 0 then none
  else if idx.toNat < (m.get p).length then some (m.put p ((m.get p).set idx.toNat v))
  else none

/-- A counting loop `for (i = start; i < start + n; i++) body`, stopping at the
first access outside a buffer. -/
def for_loop {σ : Type} (body : Nat → σ → Option σ) : Nat → Nat → σ → Option σ
  | 0, _, s => some s
  | n + 1, i, s =>
    match body i s with
    | none => none
    | some s1 => for_loop body n (i + 1) s1

/-- The constant `add` of `corrupt_it`. -/
def corrupt_add : Nat := 37
/-- The constant `meanabber` of `corrupt_it`. -/
def meanabber : Int := 10

/-- The `int` expression `m_raw_stride*row + 4*col` with `m_raw_stride = 4*w`. -/
def byte_index (w row col : Int) : Int :=
  to_int32 (to_int32 (to_int32 (4 * w) * row) + to_int32 (4 * col))

/-- Stage 1, `offx = offset(mag) + line_off + stride_off`. -/
def pass1_offx (jitter_x line_off stride_off : Int) : Int :=
  to_int32 (to_int32 (jitter_x + line_off) + stride_off)
/-- Stage 1, `src_idx = m_raw_stride*wrap(y+offy, h) + 4*wrap(x+offx, w)`. -/
def pass1_src_idx (w h x y offx offy : Int) : Int :=
  byte_index w (wrap (to_int32 (y + offy)) h) (wrap (to_int32 (x + offx)) w)
/-- Stage 2, `ra_idx = m_raw_stride*y + 4*wrap(x+(int)(lr)-offx, w)`, with `lr`
standing for `(int)(lr)`. -/
def pass2_ra_idx (w x y lr offx : Int) : Int :=
  byte_index w y (wrap (to_int32 (to_int32 (x + lr) - offx)) w)
/-- Stage 2, `g_idx = m_raw_stride*y + 4*wrap(x+(int)(lg), w)`, with `lg` standing
for `(int)(lg)`. -/
def pass2_g_idx (w x y lg : Int) : Int := byte_index w y (wrap (to_int32 (x + lg)) w)
/-- Stage 2, `b_idx = m_raw_stride*y + 4*wrap(x+(int)(lb)+offx, w)`, with `lb`
standing for `(int)(lb)`. -/
def pass2_b_idx (w x y lb offx : Int) : Int :=
  byte_index w y (wrap (to_int32 (to_int32 (x + lb) + offx)) w)
/-- Stage 3, `offx = meanabber + offset(stdabber)`. -/
def pass3_offx (off : Int) : Int := to_int32 (meanabber + off)
/-- Stage 3, `ra_idx = m_raw_stride*y + 4*wrap(x+offx, w)`. -/
def pass3_ra_idx (w x y offx : Int) : Int := byte_index w y (wrap (to_int32 (x + offx)) w)
/-- Stage 3, `g_idx = m_raw_stride*y + 4*x`. -/
def pass3_g_idx (w x y : Int) : Int := byte_index w y x
/-- Stage 3, `b_idx = m_raw_stride*y + 4*wrap(x-offx, w)`. -/
def pass3_b_idx (w x y offx : Int) : Int := byte_index w y (wrap (to_int32 (x - offx)) w)
/-- All stages, `dst_idx = m_raw_stride*y + 4*x`. -/
def dst_idx (w x y : Int) : Int := byte_index w y x

/-- The noise of one pixel in stage 1: whether `rand() % (bheight*w) == 0` starts a
block and the `offset(boffset)` drawn then, the skew `stride_off`, and the two
jitters `offset(mag)`. -/
structure Noise1 where
  new_block : Bool
  block_off : Int
  stride_off : Int
  jitter_x : Int
  jitter_y : Int
deriving DecidableEq, Repr

/-- The noise of one pixel in stage 2: the rounded channel lags `(int)(lr)`,
`(int)(lg)`, `(int)(lb)` and `offset(std_offset)`. -/
structure Noise2 where
  lr : Int
  lg : Int
  lb : Int
  offx : Int
deriving DecidableEq, Repr

/-- The four writes `dst[dst_idx+0] = b; ... dst[dst_idx+3] = a;` of stages 2
and 3. -/
def store_pixel (m : Bufs) (dst : BufId) (idx : Int) (b g r a : Nat) : Option Bufs := do
  let m0 ← store m dst (to_int32 (idx + 0)) b
  let m1 ← store m0 dst (to_int32 (idx + 1)) g
  let m2 ← store m1 dst (to_int32 (idx + 2)) r
  store m2 dst (to_int32 (idx + 3)) a

/-- The call `memcpy(&dst[dst_idx], &src[src_idx], 4)` of stage 1: four bytes from
the address of `src[src_idx]` on, to the address of `dst[dst_idx]` on. -/
def memcpy4 (m : Bufs) (dst : BufId) (d_idx : Int) (src : BufId) (s_idx : Int) :
    Option Bufs := do
  let p0 ← load m src (s_idx + 0)
  let p1 ← load m src (s_idx + 1)
  let p2 ← load m src (s_idx + 2)
  let p3 ← load m src (s_idx + 3)
  let m0 ← store m dst (d_idx + 0) p0
  let m1 ← store m0 dst (d_idx + 1) p1
  let m2 ← store m1 dst (d_idx + 2) p2
  store m2 dst (d_idx + 3) p3

/-- Body of the inner loop of stage 1 on the state (`line_off`, buffers): the
`memcpy` of the four bytes at `src_idx` to `dst_idx`. -/
def pass1_pixel (w h : Nat) (src dst : BufId) (n : Noise1) (x y : Nat) (s : Int × Bufs) :
    Option (Int × Bufs) := do
  let line_off := if n.new_block then n.block_off else s.1
  let offx := pass1_offx n.jitter_x line_off n.stride_off
  let offy := n.jitter_y
  let src_idx := pass1_src_idx w h x y offx offy
  let m ← memcpy4 s.2 dst (dst_idx w x y) src src_idx
  pure (line_off, m)

/-- Body of the inner loop of stage 2. -/
def pass2_pixel (w : Nat) (src dst : BufId) (n : Noise2) (x y : Nat) (m : Bufs) :
    Option Bufs := do
  let ra_idx := pass2_ra_idx w x y n.lr n.offx
  let g_idx := pass2_g_idx w x y n.lg
  let b_idx := pass2_b_idx w x y n.lb n.offx
  let b ← load m src (to_int32 (b_idx + 0))
  let g ← load m src (to_int32 (g_idx + 1))
  let r ← load m src (to_int32 (ra_idx + 2))
  let a ← load m src (to_int32 (ra_idx + 3))
  store_pixel m dst (dst_idx w x y) (brighten b corrupt_add) (brighten g corrupt_add)
    (brighten r corrupt_add) a

/-- Body of the inner loop of stage 3, `off` being `offset(stdabber)`. -/
def pass3_pixel (w : Nat) (src dst : BufId) (off : Int) (x y : Nat) (m : Bufs) :
    Option Bufs := do
  let offx := pass3_offx off
  let ra_idx := pass3_ra_idx w x y offx
  let g_idx := pass3_g_idx w x y
  let b_idx := pass3_b_idx w x y offx
  let b ← load m src (to_int32 (b_idx + 0))
  let g ← load m src (to_int32 (g_idx + 1))
  let r ← load m src (to_int32 (ra_idx + 2))
  let a ← load m src (to_int32 (ra_idx + 3))
  store_pixel m dst (dst_idx w x y) b g r a

/-- Stage 3 as a whole: rows `y`, then columns `x`. -/
def pass3 (w h : Nat) (src dst : BufId) (n3 : Nat → Nat → Int) (m : Bufs) : Option Bufs :=
  for_loop (fun y => for_loop (fun x => pass3_pixel w src dst (n3 x y) x y) w 0) h 0 m

/-- The function `corrupt_it` on the image `data` of `w` by `h` pixels; `buf1` and
`buf2` are the contents of the two `malloc`ed buffers.  The pointer
assignments are those of the source: stage 1 reads `real_src` and writes
`buf1`; `src = dst; dst = buf2`; stage 2; `src = dst; dst = real_src`;
stage 3. -/
def corrupt_it (data buf1 buf2 : List Nat) (w h : Nat) (n1 : Nat → Nat → Noise1)
    (n2 : Nat → Nat → Noise2) (n3 : Nat → Nat → Int) : Option Bufs := do
  let m : Bufs := { real_src := data, buf1 := buf1, buf2 := buf2 }
  let src := BufId.real_src
  let dst := BufId.buf1
  let s1 ← for_loop (fun y => for_loop (fun x => pass1_pixel w h src dst (n1 x y) x y) w 0)
    h 0 ((0 : Int), m)
  let src := dst
  let dst := BufId.buf2
  let m2 ← for_loop (fun y => for_loop (fun x => pass2_pixel w src dst (n2 x y) x y) w 0)
    h 0 s1.2
  let src := dst
  let dst := BufId.real_src
  pass3 w h src dst n3 m2

/-- No noise at all: every sample is 0, no block starts, the channel lags keep
their initial values `lr = -7`, `lg = 0`, `lb = 3`. -/
def quiet1 : Nat → Nat → Noise1 :=
  fun _ _ => { new_block := false, block_off := 0, stride_off := 0, jitter_x := 0, jitter_y := 0 }
/-- The stage 2 noise when every sample is 0. -/
def quiet2 : Nat → Nat → Noise2 := fun _ _ => { lr := -7, lg := 0, lb := 3, offx := 0 }
/-- The stage 3 noise when every sample is 0. -/
def quiet3 : Nat → Nat → Int := fun _ _ => 0

/-- A test image of 12 by 1 pixels in (b, g, r, a) order: pixel `x` has
blue = green = red = 10 * x and alpha 255. -/
def ramp12 : List Nat :=
  (List.range 12).foldr (fun x acc => 10 * x :: 10 * x :: 10 * x :: 255 :: acc) []


/-! ## Lemmas on the wipe loop -/

theorem clear_password_from_spec (rand : Nat → Nat) :
    ∀ (n : Nat) (g : Globals) (c : Nat), c + n ≤ g.password.length →
      (clear_password_from rand g c n).password.length = g.password.length ∧
      (clear_password_from rand g c n).rand_calls = g.rand_calls + n ∧
      (clear_password_from rand g c n).trace = g.trace ∧
      (clear_password_from rand g c n).using_dpms = g.using_dpms ∧
      (clear_password_from rand g c n).dpms_original = g.dpms_original ∧
      (clear_password_from rand g c n).exit_status = g.exit_status ∧
      (∀ j, j < c → (clear_password_from rand g c n).password[j]? = g.password[j]?) ∧
      (∀ j, c ≤ j → j < c + n →
        (clear_password_from rand g c n).password[j]? =
          some (rand (g.rand_calls + (j - c)) % 256)) := by
  intro n
  induction n with
  | zero =>
    intro g c _
    simp only [clear_password_from, Nat.add_zero, true_and, implies_true]
    intro j h1 h2
    omega
  | succ n ih =>
    intro g c h
    simp only [clear_password_from]
    have h2 := ih { g with password := g.password.set c (rand g.rand_calls % 256),
                           rand_calls := g.rand_calls + 1 } (c + 1)
      (by simp only [List.length_set]; omega)
    simp only [List.length_set] at h2
    obtain ⟨a1, a2, a3, a4, a5, a6, a7, a8⟩ := h2
    refine ⟨a1, by rw [a2]; omega, a3, a4, a5, a6, ?_, ?_⟩
    · intro j hj
      rw [a7 j (by omega)]
      exact List.getElem?_set_ne (by omega)
    · intro j hj1 hj2
      by_cases hc : j = c
      · subst hc
        rw [a7 j (by omega)]
        simp only [Nat.sub_self, Nat.add_zero]
        exact List.getElem?_set_eq_of_lt _ (by omega)
      · rw [a8 j (by omega) (by omega)]
        have : g.rand_calls + 1 + (j - (c + 1)) = g.rand_calls + (j - c) := by omega
        rw [this]

theorem clear_password_memory_spec (rand : Nat → Nat) (g : Globals)
    (h : g.password.length = PASSWORD_SIZE) :
    (clear_password_memory rand g).password.length = PASSWORD_SIZE ∧
    (clear_password_memory rand g).rand_calls = g.rand_calls + PASSWORD_SIZE ∧
    (clear_password_memory rand g).trace = g.trace ++ [Effect.clear_password_memory] ∧
    (∀ j, j < PASSWORD_SIZE →
      (clear_password_memory rand g).password[j]? = some (rand (g.rand_calls + j) % 256)) := by
  have hs := clear_password_from_spec rand PASSWORD_SIZE (g.emit Effect.clear_password_memory) 0
    (by simp only [Globals.emit]; omega)
  obtain ⟨a1, a2, a3, _, _, _, _, a8⟩ := hs
  unfold clear_password_memory
  refine ⟨by rw [a1]; exact h, a2, a3, ?_⟩
  intro j hj
  have := a8 j (Nat.zero_le j) (by omega)
  simpa [Globals.emit] using this

/-- The switch is reached from the loop body exactly when the frame, if one is
drawn, is presented. -/
theorem main_loop_body_reaches (rand : Nat → Nat) (s : LoopState) (i : Input)
    (h : i.reaches_switch = true) :
    ∃ s1 : LoopState, main_loop_body rand s i = handle_event rand s1 i ∧
      s1.g.password = s.g.password ∧ s1.g.rand_calls = s.g.rand_calls ∧ s1.len = s.len ∧
      s1.running = s.running ∧ s1.returned = s.returned ∧ s1.failed = s.failed ∧
      s1.sleepmode = s.sleepmode ∧ s1.g.using_dpms = s.g.using_dpms ∧
      s1.g.dpms_original = s.g.dpms_original ∧ s1.g.exit_status = s.g.exit_status ∧
      s1.g.trace =
        (s.g.trace ++ (if s.sleepmode && s.g.using_dpms then [Effect.DPMSForceLevelOff] else []))
          ++ (if i.pending then [] else [Effect.redraw s.failed s.len]) := by
  unfold Input.reaches_switch at h
  unfold main_loop_body
  cases hp : i.pending <;> cases hw : i.swap_ok <;> simp [hp, hw] at h ⊢ <;>
    split <;> simp [Globals.emit] <;>
    exact ⟨_, rfl, rfl, rfl, rfl, rfl, rfl, rfl, rfl, rfl, rfl, rfl, rfl⟩

theorem main_loop_run_stopped (rand : Nat → Nat) (s : LoopState) (rest : List Input)
    (h : s.running = false ∨ s.returned = true) : main_loop_run rand s rest = s := by
  cases rest with
  | nil => rfl
  | cons i rest =>
    unfold main_loop_run
    rcases h with h | h <;> simp [h]

theorem main_loop_run_cons (rand : Nat → Nat) (s : LoopState) (i : Input) (rest : List Input)
    (hrun : s.running = true) (hret : s.returned = false) :
    main_loop_run rand s (i :: rest) = main_loop_run rand (main_loop_body rand s i) rest := by
  rw [main_loop_run]
  simp [hrun, hret]

/-! ## The capacity invariant -/

theorem key_switch_inv (rand : Nat → Nat) (s : LoopState) (ksym inputChar : Nat) (p : Bool)
    (h1 : s.g.password.length = PASSWORD_SIZE) (h2 : s.len ≤ 255) :
    (key_switch rand s ksym inputChar p).g.password.length = PASSWORD_SIZE ∧
    (key_switch rand s ksym inputChar p).len ≤ 255 := by
  unfold key_switch
  split
  · cases p
    · simp [Globals.emit, h1]
    · simp only [if_true]
      exact ⟨(clear_password_memory_spec rand _ (by simp [Globals.emit, h1])).1, Nat.zero_le _⟩
  · split
    · exact ⟨h1, Nat.zero_le _⟩
    · split
      · split
        · exact ⟨h1, by simp only; omega⟩
        · exact ⟨h1, h2⟩
      · split
        · rename_i hc
          simp only [Bool.and_eq_true, decide_eq_true_eq, PASSWORD_SIZE] at hc
          exact ⟨by simp [h1], by simp only; omega⟩
        · exact ⟨h1, h2⟩

theorem handle_event_inv (rand : Nat → Nat) (s : LoopState) (i : Input)
    (h1 : s.g.password.length = PASSWORD_SIZE) (h2 : s.len ≤ 255) :
    (handle_event rand s i).g.password.length = PASSWORD_SIZE ∧
    (handle_event rand s i).len ≤ 255 := by
  unfold handle_event
  split
  · exact ⟨h1, h2⟩
  · exact key_switch_inv rand _ _ _ _ h1 h2
  · exact ⟨h1, h2⟩

theorem main_loop_body_inv (rand : Nat → Nat) (s : LoopState) (i : Input)
    (h1 : s.g.password.length = PASSWORD_SIZE) (h2 : s.len ≤ 255) :
    (main_loop_body rand s i).g.password.length = PASSWORD_SIZE ∧
    (main_loop_body rand s i).len ≤ 255 := by
  unfold main_loop_body
  simp only
  split
  · split
    · split <;> exact ⟨h1, h2⟩
    · apply handle_event_inv
      · split <;> exact h1
      · split <;> exact h2
  · apply handle_event_inv
    · split <;> exact h1
    · split <;> exact h2

theorem main_loop_run_inv (rand : Nat → Nat) (inputs : List Input) :
    ∀ s : LoopState, s.g.password.length = PASSWORD_SIZE → s.len ≤ 255 →
      (main_loop_run rand s inputs).g.password.length = PASSWORD_SIZE ∧
      (main_loop_run rand s inputs).len ≤ 255 := by
  induction inputs with
  | nil => intro s h1 h2; exact ⟨h1, h2⟩
  | cons i rest ih =>
    intro s h1 h2
    unfold main_loop_run
    split
    · exact ih _ (main_loop_body_inv rand s i h1 h2).1 (main_loop_body_inv rand s i h1 h2).2
    · exact ⟨h1, h2⟩

theorem main_loop_inv (rand : Nat → Nat) (g : Globals) (first_swap_ok : Bool)
    (inputs : List Input) (h : g.password.length = PASSWORD_SIZE) :
    (main_loop rand g first_swap_ok inputs).g.password.length = PASSWORD_SIZE ∧
    (main_loop rand g first_swap_ok inputs).len ≤ 255 := by
  unfold main_loop
  split
  · exact ⟨h, Nat.zero_le _⟩
  · exact main_loop_run_inv rand inputs (loop_init g) h (Nat.zero_le _)

/-- With 255 characters held, a key outside the four special keysyms changes
neither `len` nor `password`, whatever else happens in the iteration. -/
theorem main_loop_body_full (rand : Nat → Nat) (s : LoopState) (i : Input) (ksym c : Nat)
    (hev : i.event = XEvent.KeyPress ksym c)
    (hk : ksym ≠ XK_Return ∧ ksym ≠ XK_KP_Enter ∧ ksym ≠ XK_Escape ∧ ksym ≠ XK_BackSpace)
    (hfull : s.len = 255) :
    (main_loop_body rand s i).len = s.len ∧
    (main_loop_body rand s i).g.password = s.g.password := by
  obtain ⟨k1, k2, k3, k4⟩ := hk
  unfold main_loop_body
  cases i.pending <;> cases i.swap_ok <;> cases hsl : (s.sleepmode && s.g.using_dpms) <;>
    simp [handle_event, hev, key_switch, k1, k2, k3, k4, hfull, PASSWORD_SIZE, Globals.emit]

/-! ## Typing refines the reference stack -/

theorem take_set_self (l : List Nat) (n c : Nat) : (l.set n c).take n = l.take n := by
  apply List.ext_getElem?
  intro j
  rw [List.getElem?_take, List.getElem?_take]
  split
  · rw [List.getElem?_set_ne (by omega)]
  · rfl

theorem take_succ_set (l : List Nat) (n c : Nat) (h : n < l.length) :
    (l.set n c).take (n + 1) = l.take n ++ [c] := by
  rw [List.take_succ, take_set_self, List.getElem?_set_eq_of_lt _ h]
  rfl

theorem typing_op_cases (i : Input) (op : BufOp) (h : typing_op i = some op) :
    ∃ ksym c, i.event = XEvent.KeyPress ksym c ∧
      ((ksym = XK_BackSpace ∧ op = BufOp.backspace) ∨
       (ksym ≠ XK_BackSpace ∧ ksym ≠ XK_Return ∧ ksym ≠ XK_KP_Enter ∧ ksym ≠ XK_Escape ∧
          isprint c = true ∧ op = BufOp.append c)) := by
  unfold typing_op at h
  split at h
  · rename_i ksym c hev
    refine ⟨ksym, c, hev, ?_⟩
    split at h
    · rename_i hk
      exact Or.inl ⟨hk, by injection h with h; exact h.symm⟩
    · rename_i hk
      split at h
      · rename_i hk2
        exact Or.inr ⟨hk, hk2.1, hk2.2.1, hk2.2.2.1, hk2.2.2.2, by injection h with h; exact h.symm⟩
      · cases h
  · cases h

theorem key_switch_refines (rand : Nat → Nat) (s : LoopState) (st : List Nat) (ksym c : Nat)
    (p : Bool) (op : BufOp) (hR : Refines s st)
    (hop : (ksym = XK_BackSpace ∧ op = BufOp.backspace) ∨
       (ksym ≠ XK_BackSpace ∧ ksym ≠ XK_Return ∧ ksym ≠ XK_KP_Enter ∧ ksym ≠ XK_Escape ∧
          isprint c = true ∧ op = BufOp.append c)) :
    Refines (key_switch rand s ksym c p) (spec_stack_step st op) := by
  obtain ⟨r1, r2, r3, r4, r5, r6⟩ := hR
  rcases hop with ⟨hk, hop⟩ | ⟨k1, k2, k3, k4, hpr, hop⟩
  · subst hop
    have e1 : ¬ (ksym = XK_Return ∨ ksym = XK_KP_Enter) := by rw [hk]; decide
    have e2 : ksym ≠ XK_Escape := by rw [hk]; decide
    unfold key_switch
    rw [if_neg e1, if_neg e2, if_pos hk]
    simp only [spec_stack_step]
    by_cases h0 : s.len = 0
    · rw [if_neg (by simpa using h0)]
      have : st = [] := by
        apply List.eq_nil_of_length_eq_zero
        omega
      subst this
      exact ⟨r1, r2, r3, r4, r5, r6⟩
    · rw [if_pos h0]
      refine ⟨?_, ?_, r3, by simp only; omega, r5, r6⟩
      · simp only
        rw [← r1, List.dropLast_take (by rw [r3]; simp only [PASSWORD_SIZE]; omega)]
      · simp only [List.length_dropLast]
        omega
  · subst hop
    have e1 : ¬ (ksym = XK_Return ∨ ksym = XK_KP_Enter) := by
      intro h; rcases h with h | h
      · exact k2 h
      · exact k3 h
    unfold key_switch
    rw [if_neg e1, if_neg k4, if_neg k1]
    simp only [spec_stack_step]
    by_cases hfull : s.len + 1 < PASSWORD_SIZE
    · have hst : st.length < 255 := by simp only [PASSWORD_SIZE] at hfull; omega
      rw [if_pos (by simp [hpr, hfull]), if_pos hst]
      refine ⟨?_, ?_, by simp [r3], by simp only [PASSWORD_SIZE] at hfull ⊢; omega, r5, r6⟩
      · simp only
        rw [take_succ_set _ _ _ (by rw [r3]; omega), r1]
      · simp only [List.length_append, List.length_singleton]
        omega
    · have hst : ¬ st.length < 255 := by simp only [PASSWORD_SIZE] at hfull; omega
      rw [if_neg (by simp [hfull]), if_neg hst]
      exact ⟨r1, r2, r3, r4, r5, r6⟩

theorem main_loop_body_refines (rand : Nat → Nat) (s : LoopState) (st : List Nat) (i : Input)
    (op : BufOp) (hR : Refines s st) (hop : typing_op i = some op)
    (hreach : i.reaches_switch = true) :
    Refines (main_loop_body rand s i) (spec_stack_step st op) := by
  obtain ⟨s1, hb, hpw, _, hl1, hr1, hret1, _⟩ := main_loop_body_reaches rand s i hreach
  obtain ⟨ksym, c, hev, hcases⟩ := typing_op_cases i op hop
  obtain ⟨r1, r2, r3, r4, r5, r6⟩ := hR
  rw [hb]
  unfold handle_event
  rw [hev]
  simp only
  apply key_switch_refines rand _ st ksym c _ op _ hcases
  exact ⟨by simp only [hpw, hl1]; exact r1, by simp only [hl1]; exact r2,
    by simp only [hpw]; exact r3, by simp only [hl1]; exact r4,
    by simp only [hr1]; exact r5, by simp only [hret1]; exact r6⟩

theorem main_loop_run_refines (rand : Nat → Nat) (ins : List Input) :
    ∀ (s : LoopState) (st : List Nat), Refines s st →
      (∀ i ∈ ins, (typing_op i).isSome = true ∧ i.reaches_switch = true) →
      Refines (main_loop_run rand s ins)
        ((ins.filterMap typing_op).foldl spec_stack_step st) := by
  induction ins with
  | nil => intro s st hR _; exact hR
  | cons i rest ih =>
    intro s st hR hall
    have hi := hall i (List.mem_cons_self i rest)
    obtain ⟨op, hop⟩ := Option.isSome_iff_exists.mp hi.1
    rw [main_loop_run_cons rand s i rest hR.2.2.2.2.1 hR.2.2.2.2.2]
    rw [List.filterMap_cons_some hop, List.foldl_cons]
    exact ih _ _ (main_loop_body_refines rand s st i op hR hop hi.2)
      (fun j hj => hall j (List.mem_cons_of_mem i hj))

/-! ## The length under typing -/

theorem spec_stack_length_from (ops : List BufOp) :
    ∀ st : List Nat, (ops.foldl spec_stack_step st).length = ops.foldl length_step st.length := by
  induction ops with
  | nil => intro st; rfl
  | cons o rest ih =>
    intro st
    rw [List.foldl_cons, List.foldl_cons, ih]
    congr 1
    cases o with
    | append c =>
      simp only [spec_stack_step, length_step]
      split <;> simp
    | backspace => simp [spec_stack_step, length_step]

theorem count_appends_cons_append (c : Nat) (rest : List BufOp) :
    count_appends (BufOp.append c :: rest) = count_appends rest + 1 := by
  simp [count_appends]

theorem count_appends_cons_backspace (rest : List BufOp) :
    count_appends (BufOp.backspace :: rest) = count_appends rest := by
  simp [count_appends]

theorem count_backspaces_cons_append (c : Nat) (rest : List BufOp) :
    count_backspaces (BufOp.append c :: rest) = count_backspaces rest := by
  simp [count_backspaces]

theorem count_backspaces_cons_backspace (rest : List BufOp) :
    count_backspaces (BufOp.backspace :: rest) = count_backspaces rest + 1 := by
  simp [count_backspaces]

/-- When no operation is ever dropped, the clipped count is the plain difference. -/
theorem length_step_exact (ops : List BufOp) :
    ∀ n : Nat,
      (∀ k, count_backspaces (ops.take k) ≤ n + count_appends (ops.take k) ∧
            n + count_appends (ops.take k) ≤ count_backspaces (ops.take k) + 255) →
      ops.foldl length_step n + count_backspaces ops = n + count_appends ops := by
  induction ops with
  | nil => intro n _; simp [count_appends, count_backspaces]
  | cons o rest ih =>
    intro n h
    rw [List.foldl_cons]
    cases o with
    | append c =>
      have h1 := h 1
      simp only [List.take_succ_cons, List.take_zero, count_appends_cons_append,
        count_backspaces_cons_append] at h1
      have h1a : count_appends ([] : List BufOp) = 0 := rfl
      have h1b : count_backspaces ([] : List BufOp) = 0 := rfl
      rw [h1a, h1b] at h1
      have hn : n < 255 := by omega
      simp only [length_step, if_pos hn]
      rw [count_appends_cons_append, count_backspaces_cons_append]
      have := ih (n + 1) (by
        intro k
        have hk := h (k + 1)
        simp only [List.take_succ_cons, count_appends_cons_append,
          count_backspaces_cons_append] at hk
        omega)
      omega
    | backspace =>
      have h1 := h 1
      simp only [List.take_succ_cons, List.take_zero, count_appends_cons_backspace,
        count_backspaces_cons_backspace] at h1
      have h1a : count_appends ([] : List BufOp) = 0 := rfl
      have h1b : count_backspaces ([] : List BufOp) = 0 := rfl
      rw [h1a, h1b] at h1
      simp only [length_step]
      rw [count_appends_cons_backspace, count_backspaces_cons_backspace]
      have := ih (n - 1) (by
        intro k
        have hk := h (k + 1)
        simp only [List.take_succ_cons, count_appends_cons_backspace,
          count_backspaces_cons_backspace] at hk
        omega)
      omega

/-! ## The conversation callback on prompts that need no answer -/

theorem conv_loop_no_echo (password : List Nat) (strdup_ok : Nat → Bool) (rest : List Int) :
    ∀ (i : Nat) (arr : List pam_response),
      (∀ t ∈ rest, t ≠ PAM_PROMPT_ECHO_OFF ∧ t ≠ PAM_PROMPT_ECHO_ON) →
      conv_loop password strdup_ok rest i arr = ConvOutcome.returned PAM_SUCCESS (some arr) := by
  induction rest with
  | nil => intro i arr _; rfl
  | cons t rest ih =>
    intro i arr h
    unfold conv_loop
    rw [if_pos (h t (List.mem_cons_self t rest))]
    exact ih (i + 1) arr (fun u hu => h u (List.mem_cons_of_mem t hu))

/-- In the model an echo prompt at index 1 makes `conv_callback` leave defined
behaviour: `resp[1]` is not an entry of the response array. -/
theorem conv_callback_second_echo_prompt :
    conv_callback [97, 0] true (fun _ => true) [PAM_PROMPT_ECHO_OFF, PAM_PROMPT_ECHO_OFF]
      = ConvOutcome.undefined := by
  decide

/-! ## Arithmetic of `brighten` -/

theorem brighten_product_bound (r add : Nat) (hr : r < 256) (ha : add < 256) :
    255 * (r + add) ≤ r * add + 255 * 255 := by
  have h1 : (0 : Int) ≤ (255 - (r : Int)) * (255 - (add : Int)) :=
    mul_nonneg (by omega) (by omega)
  have h2 : (255 : Int) * ((r : Int) + (add : Int)) ≤ (r : Int) * (add : Int) + 255 * 255 := by
    nlinarith [h1]
  exact_mod_cast h2

theorem brighten_eq (r add : Nat) (hr : r < 256) (ha : add < 256) :
    r * add / 255 ≤ r ∧ r * add / 255 ≤ add ∧ r + add ≤ r * add / 255 + 255 ∧
    brighten r add = r - r * add / 255 + add := by
  have hq1 : r * add / 255 ≤ r := by
    apply Nat.div_le_of_le_mul
    have : r * add ≤ r * 255 := Nat.mul_le_mul_left r (by omega)
    omega
  have hq2 : r * add / 255 ≤ add := by
    apply Nat.div_le_of_le_mul
    have : r * add ≤ 255 * add := Nat.mul_le_mul_right add (by omega)
    omega
  have hq3 : r + add ≤ r * add / 255 + 255 := by
    have hb := brighten_product_bound r add hr ha
    have : r + add - 255 ≤ r * add / 255 := by
      rw [Nat.le_div_iff_mul_le (by decide)]
      have e : (r + add - 255) * 255 ≤ 255 * (r + add) - 255 * 255 := by omega
      omega
    omega
  have hmul : r * add < UINT32_MOD := by
    have : r * add ≤ 255 * 255 := Nat.mul_le_mul (by omega) (by omega)
    simp only [UINT32_MOD]
    omega
  refine ⟨hq1, hq2, hq3, ?_⟩
  unfold brighten
  simp only
  have e1 : r % UINT32_MOD = r := Nat.mod_eq_of_lt (by simp only [UINT32_MOD]; omega)
  have e2 : add % UINT32_MOD = add := Nat.mod_eq_of_lt (by simp only [UINT32_MOD]; omega)
  rw [e1, e2, Nat.mod_eq_of_lt hmul]
  generalize r * add / 255 = q at hq1 hq2 hq3
  simp only [UINT32_MOD]
  omega

/-! ## Monotonicity of `brighten`, the noise cursor -/

theorem brighten_quotient_step (r a d : Nat) (hr : r < 256) :
    r * (a + d) / 255 ≤ r * a / 255 + d := by
  have h1 : r * (a + d) ≤ r * a + 255 * d := by
    have : r * d ≤ 255 * d := Nat.mul_le_mul_right d (by omega)
    rw [Nat.mul_add]
    omega
  calc r * (a + d) / 255 ≤ (r * a + 255 * d) / 255 := Nat.div_le_div_right h1
    _ = r * a / 255 + d := by rw [Nat.add_mul_div_left _ _ (by decide : 0 < 255)]

theorem nrandf_state_spec {α : Type} (table : List α) (k : Nat) :
    (nrandf_state (noise_init table) k).rnjesus = table ∧
    (nrandf_state (noise_init table) k).start = k % table.length := by
  induction k with
  | zero => exact ⟨rfl, by simp [nrandf_state, noise_init]⟩
  | succ k ih =>
    obtain ⟨h1, h2⟩ := ih
    refine ⟨?_, ?_⟩
    · simp only [nrandf_state, nrandf]
      exact h1
    · simp only [nrandf_state, nrandf]
      rw [h1, h2]
      exact Nat.mod_add_mod k table.length 1

theorem nrandf_call_spec {α : Type} (table : List α) (k : Nat) (hk : 1 ≤ k) :
    nrandf_call (noise_init table) k = table[k % table.length]? := by
  obtain ⟨h1, h2⟩ := nrandf_state_spec table (k - 1)
  simp only [nrandf_call, nrandf]
  rw [h1, h2, Nat.mod_add_mod]
  have : k - 1 + 1 = k := by omega
  rw [this]

/-! ## Stage 3 never writes the buffer it reads -/

theorem for_loop_inv {σ : Type} (P : σ → Prop) (body : Nat → σ → Option σ)
    (hb : ∀ i s s1, P s → body i s = some s1 → P s1) :
    ∀ (n i : Nat) (s s1 : σ), P s → for_loop body n i s = some s1 → P s1 := by
  intro n
  induction n with
  | zero =>
    intro i s s1 hP h
    simp only [for_loop, Option.some.injEq] at h
    exact h ▸ hP
  | succ n ih =>
    intro i s s1 hP h
    simp only [for_loop] at h
    cases hbody : body i s with
    | none => rw [hbody] at h; cases h
    | some s2 =>
      rw [hbody] at h
      exact ih (i + 1) s2 s1 (hb i s s2 hP hbody) h

theorem put_get_other (m : Bufs) (p q : BufId) (b : List Nat) (hne : q ≠ p) :
    (m.put p b).get q = m.get q := by
  cases p <;> cases q <;> first | rfl | exact absurd rfl hne

theorem store_get_other (m m1 : Bufs) (p q : BufId) (idx : Int) (v : Nat)
    (h : store m p idx v = some m1) (hne : q ≠ p) : m1.get q = m.get q := by
  unfold store at h
  split at h
  · cases h
  · split at h
    · simp only [Option.some.injEq] at h
      rw [← h]
      exact put_get_other m p q _ hne
    · cases h

theorem store_pixel_get_other (m m1 : Bufs) (p q : BufId) (idx : Int) (b g r a : Nat)
    (h : store_pixel m p idx b g r a = some m1) (hne : q ≠ p) : m1.get q = m.get q := by
  unfold store_pixel at h
  simp only [Option.bind_eq_bind] at h
  cases h0 : store m p (to_int32 (idx + 0)) b with
  | none => rw [h0] at h; cases h
  | some m0 =>
    rw [h0] at h
    simp only [Option.some_bind] at h
    cases h1 : store m0 p (to_int32 (idx + 1)) g with
    | none => rw [h1] at h; cases h
    | some m1a =>
      rw [h1] at h
      simp only [Option.some_bind] at h
      cases h2 : store m1a p (to_int32 (idx + 2)) r with
      | none => rw [h2] at h; cases h
      | some m2 =>
        rw [h2] at h
        simp only [Option.some_bind] at h
        rw [store_get_other m2 m1 p q _ _ h hne, store_get_other m1a m2 p q _ _ h2 hne,
          store_get_other m0 m1a p q _ _ h1 hne, store_get_other m m0 p q _ _ h0 hne]

theorem pass3_pixel_src_unchanged (w : Nat) (src dst : BufId) (off : Int) (x y : Nat)
    (m m1 : Bufs) (hne : src ≠ dst) (h : pass3_pixel w src dst off x y m = some m1) :
    m1.get src = m.get src := by
  unfold pass3_pixel at h
  simp only [Option.bind_eq_bind, Option.bind_eq_some] at h
  obtain ⟨_, _, _, _, _, _, _, _, hs⟩ := h
  exact store_pixel_get_other m m1 dst src _ _ _ _ _ hs hne

/-- Stage 3 run with distinct source and destination leaves the source buffer as
it was: every read of the stage returns a value the stage did not write. -/
theorem pass3_src_unchanged (w h : Nat) (src dst : BufId) (n3 : Nat → Nat → Int)
    (m m1 : Bufs) (hne : src ≠ dst) (hrun : pass3 w h src dst n3 m = some m1) :
    m1.get src = m.get src := by
  unfold pass3 at hrun
  refine for_loop_inv (fun s => s.get src = m.get src) _ ?_ h 0 m m1 rfl hrun
  intro y s s1 hP hrow
  refine for_loop_inv (fun s => s.get src = m.get src) _ ?_ w 0 s s1 hP hrow
  intro x t t1 hQ hpix
  rw [pass3_pixel_src_unchanged w src dst _ x y t t1 hne hpix]
  exact hQ

/-- In `corrupt_it` stage 3 runs with `src = buf2` and `dst = real_src`: the
buffer `buf2` at the end is still the output of stage 2. -/
theorem corrupt_it_stage3_buffers (data buf1 buf2 : List Nat) (w h : Nat)
    (n1 : Nat → Nat → Noise1) (n2 : Nat → Nat → Noise2) (n3 : Nat → Nat → Int) (out : Bufs)
    (hrun : corrupt_it data buf1 buf2 w h n1 n2 n3 = some out) :
    ∃ m2 : Bufs, pass3 w h BufId.buf2 BufId.real_src n3 m2 = some out ∧ out.buf2 = m2.buf2 := by
  unfold corrupt_it at hrun
  simp only [Option.bind_eq_bind, Option.bind_eq_some] at hrun
  obtain ⟨_, _, m2, _, h3⟩ := hrun
  exact ⟨m2, h3, pass3_src_unchanged w h BufId.buf2 BufId.real_src n3 m2 out (by decide) h3⟩

/-! ## Folded coordinates and byte indices -/

theorem wrap_folds (c b : Int) (hb : 0 < b) (hbmax : b ≤ INT_MAX) (hlo : -b ≤ c)
    (hhi : c < 2 * b) : 0 ≤ wrap c b ∧ wrap c b < b := by
  simp only [INT_MAX] at hbmax
  unfold wrap
  split
  · have e : to_int32 (c + b) = c + b := by unfold to_int32; omega
    rw [e]
    exact ⟨by omega, by omega⟩
  · split
    · have e : to_int32 (c - b) = c - b := by unfold to_int32; omega
      rw [e]
      exact ⟨by omega, by omega⟩
    · exact ⟨by omega, by omega⟩

theorem to_int32_id (z : Int) (h1 : -2147483648 ≤ z) (h2 : z ≤ 2147483647) :
    to_int32 z = z := by
  unfold to_int32
  omega

/-- For an image with 4*w*h within `int`, the `int` computation of a byte index at
a row in [0, h) and a column in [0, w) does not overflow, and the four bytes
of that pixel lie in [0, 4*w*h). -/
theorem byte_index_bound (w h row col : Int) (hw : 0 < w) (hsize : 4 * w * h ≤ INT_MAX)
    (hr0 : 0 ≤ row) (hr1 : row < h) (hc0 : 0 ≤ col) (hc1 : col < w) :
    byte_index w row col = 4 * w * row + 4 * col ∧
    0 ≤ byte_index w row col ∧ byte_index w row col + 3 < 4 * w * h := by
  simp only [INT_MAX] at hsize
  obtain ⟨P, hP⟩ : ∃ P : Int, P = w * row := ⟨_, rfl⟩
  obtain ⟨Q, hQ⟩ : ∃ Q : Int, Q = w * h := ⟨_, rfl⟩
  have hP0 : 0 ≤ P := by rw [hP]; exact mul_nonneg (by omega) hr0
  have hPQ : P + w ≤ Q := by
    have : w * (row + 1) ≤ w * h := mul_le_mul_of_nonneg_left (by omega) (by omega)
    rw [hP, hQ]
    linarith
  have e4 : 4 * w * h = 4 * Q := by rw [hQ]; ring
  have e5 : 4 * w * row = 4 * P := by rw [hP]; ring
  rw [e4] at hsize ⊢
  have i1 : to_int32 (4 * w) = 4 * w := to_int32_id _ (by omega) (by omega)
  have i2 : to_int32 (4 * P) = 4 * P := to_int32_id _ (by omega) (by omega)
  have i3 : to_int32 (4 * col) = 4 * col := to_int32_id _ (by omega) (by omega)
  have i4 : to_int32 (4 * P + 4 * col) = 4 * P + 4 * col :=
    to_int32_id _ (by omega) (by omega)
  have hb : byte_index w row col = 4 * P + 4 * col := by
    unfold byte_index
    rw [i1, e5, i2, i3, i4]
  rw [hb, e5]
  exact ⟨rfl, by omega, by omega⟩

/-- The width is within `int` when the image size in bytes is. -/
theorem width_le_int_max (w h : Int) (hw : 0 < w) (hh : 0 < h) (hsize : 4 * w * h ≤ INT_MAX) :
    w ≤ INT_MAX ∧ h ≤ INT_MAX := by
  have h1 : w * 1 ≤ w * h := mul_le_mul_of_nonneg_left (by omega) (by omega)
  have h2 : 1 * h ≤ w * h := mul_le_mul_of_nonneg_right (by omega) (by omega)
  have e : 4 * w * h = 4 * (w * h) := by ring
  rw [e] at hsize
  simp only [INT_MAX] at hsize ⊢
  constructor
  · linarith
  · linarith

/-! ## The perturbation of the indicator length -/

theorem lendisp_eval (cs : Bool) (passdisp : List Nat) (len : Nat)
    (hpd : passdisp.length = 256) (hlen : len ≤ 255) (h1 : 1 ≤ len) :
    ∃ b, passdisp[len]? = some b ∧ b ∈ passdisp ∧
      lendisp cs true passdisp len =
        some (len + (char_to_uint cs b * len % UINT32_MOD) % 5) := by
  have hlt : len < passdisp.length := by omega
  refine ⟨passdisp[len], List.getElem?_eq_getElem hlt, List.getElem_mem _, ?_⟩
  unfold lendisp
  have hpos : (true && decide (len > 0)) = true := by simp; omega
  rw [if_pos hpos, List.getElem?_eq_getElem hlt]

theorem fill_passdisp_star :
    fill_passdisp [42] (List.replicate 256 0) = List.replicate 256 42 := by
  decide

/-- Where `char` is signed a byte from 128 on perturbs differently from its byte
value: byte 200 at `len = 2` gives 2 + 4, while (200 * 2) mod 5 = 0. -/
theorem lendisp_signed_char_example :
    lendisp true true (0 :: 0 :: 200 :: List.replicate 253 42) 2 = some 6 ∧
    lendisp false true (0 :: 0 :: 200 :: List.replicate 253 42) 2 = some 2 := by
  refine ⟨by decide, by decide⟩

/-! ## The signal handler -/

/-- What `handle_signal` does from any globals and for any signal: when DPMS is in
use the restore of the saved timeouts (followed by `DPMSDisable` when DPMS
was originally disabled), then the message on stderr and the exit with
failure status; `password` and the `rand` counter are left as they are and
no wipe enters the trace. -/
theorem handle_signal_trace (g : Globals) (sig : Int) :
    (handle_signal g sig).trace =
      g.trace ++
        (if g.using_dpms then
          [Effect.DPMSSetTimeouts g.dpms_original.standby g.dpms_original.suspend
            g.dpms_original.off] ++
            (if g.dpms_original.state then [] else [Effect.DPMSDisable])
         else []) ++
        [Effect.fprintf_stderr, Effect.exit EXIT_FAILURE] ∧
    (handle_signal g sig).exit_status = some EXIT_FAILURE ∧
    (handle_signal g sig).password = g.password ∧
    (handle_signal g sig).rand_calls = g.rand_calls ∧
    (Effect.clear_password_memory ∈ (handle_signal g sig).trace →
      Effect.clear_password_memory ∈ g.trace) := by
  unfold handle_signal die
  cases hu : g.using_dpms <;> cases hs : g.dpms_original.state <;>
    simp [Globals.emit, hu, hs]

/-! ## The claims -/

/-- C1, evaluated on the code: after typing the character a and pressing Return
with the verifier answering failure, and likewise after typing a and pressing
Escape, `len` is 0 but byte 0 of `password` still holds the typed character:
`rand` has not been called and the wipe routine does not occur in the trace. -/
theorem C1_plaintext_persists_after_failure_and_cancel :
    (main_loop (fun n => n) globals_init true [key 97 97, key XK_Return 13]).len = 0 ∧
    (main_loop (fun n => n) globals_init true [key 97 97, key XK_Return 13]).failed = true ∧
    (main_loop (fun n => n) globals_init true
      [key 97 97, key XK_Return 13]).g.password[0]? = some 97 ∧
    (main_loop (fun n => n) globals_init true [key 97 97, key XK_Return 13]).g.rand_calls = 0 ∧
    (main_loop (fun n => n) globals_init true [key 97 97, key XK_Return 13]).g.trace
      = [Effect.pam_authenticate [97]] ∧
    (main_loop (fun n => n) globals_init true [key 97 97, key XK_Escape 27]).len = 0 ∧
    (main_loop (fun n => n) globals_init true
      [key 97 97, key XK_Escape 27]).g.password[0]? = some 97 ∧
    (main_loop (fun n => n) globals_init true [key 97 97, key XK_Escape 27]).g.rand_calls = 0 ∧
    (main_loop (fun n => n) globals_init true [key 97 97, key XK_Escape 27]).g.trace = [] := by
  refine ⟨?_, ?_, ?_, ?_, ?_, ?_, ?_, ?_, ?_⟩ <;> decide

/-- C2: from every state of the loop, whatever the typed length, a Return or
KP_Enter key that reaches the switch with the verifier answering success
overwrites each of the 256 bytes of `password` with the next values of the
random source (byte `j` gets call number `rand_calls + j`, truncated to a
byte), sets `len` to 0 and `running` to false; the loop then ends without
processing any of the remaining events, and it ends through `running`, not
through an early return. -/
theorem C2_return_success_wipes_and_stops (rand : Nat → Nat) (s : LoopState) (i : Input)
    (rest : List Input) (ksym inputChar : Nat)
    (hrun : s.running = true) (hret : s.returned = false)
    (hlen : s.g.password.length = PASSWORD_SIZE)
    (hev : i.event = XEvent.KeyPress ksym inputChar)
    (hk : ksym = XK_Return ∨ ksym = XK_KP_Enter)
    (hreach : i.reaches_switch = true)
    (hpam : i.pam_success = true) :
    main_loop_run rand s (i :: rest) = main_loop_body rand s i ∧
    (∀ j, j < PASSWORD_SIZE →
      (main_loop_run rand s (i :: rest)).g.password[j]? =
        some (rand (s.g.rand_calls + j) % 256)) ∧
    (main_loop_run rand s (i :: rest)).g.password.length = PASSWORD_SIZE ∧
    (main_loop_run rand s (i :: rest)).g.rand_calls = s.g.rand_calls + PASSWORD_SIZE ∧
    (main_loop_run rand s (i :: rest)).len = 0 ∧
    (main_loop_run rand s (i :: rest)).running = false ∧
    (main_loop_run rand s (i :: rest)).returned = false := by
  obtain ⟨s1, hb, hpw, hrc, _, _, hr1, _⟩ := main_loop_body_reaches rand s i hreach
  have hbody : main_loop_body rand s i =
      { s1 with
        g := clear_password_memory rand
          (({ s1.g with password := s1.g.password.set s1.len 0 } : Globals).emit
            (Effect.pam_authenticate (cstring (s1.g.password.set s1.len 0)))),
        sleepmode := false, failed := false, running := false, len := 0 } := by
    rw [hb]
    simp [handle_event, hev, key_switch, hk, hpam]
  have hspec := clear_password_memory_spec rand
    (({ s1.g with password := s1.g.password.set s1.len 0 } : Globals).emit
      (Effect.pam_authenticate (cstring (s1.g.password.set s1.len 0))))
    (by simp [Globals.emit, hpw, hlen])
  obtain ⟨b1, b2, _, b4⟩ := hspec
  have hstop : main_loop_run rand s (i :: rest) = main_loop_body rand s i := by
    rw [main_loop_run_cons rand s i rest hrun hret]
    exact main_loop_run_stopped rand _ rest (Or.inl (by rw [hbody]))
  rw [hstop]
  refine ⟨rfl, ?_, ?_, ?_, ?_, ?_, ?_⟩
  · intro j hj
    rw [hbody]
    simp only
    rw [b4 j hj]
    simp [Globals.emit, hrc]
  · rw [hbody]; exact b1
  · rw [hbody]; simp only; rw [b2]; simp [Globals.emit, hrc]
  · rw [hbody]
  · rw [hbody]
  · rw [hbody]; exact hr1.trans hret

/-- C2 at a concrete input: the empty initial state, a random stream `n + 7`, a
Return key answered with success, and one more key that is never processed. -/
theorem C2_return_success_wipes_and_stops_witness :
    (loop_init globals_init).g.password.length = PASSWORD_SIZE ∧
    (main_loop_run (fun n => n + 7) (loop_init globals_init)
      [{ key XK_Return 13 with pam_success := true }, key 97 97]).g.password[3]? = some 10 ∧
    (main_loop_run (fun n => n + 7) (loop_init globals_init)
      [{ key XK_Return 13 with pam_success := true }, key 97 97]).len = 0 ∧
    (main_loop_run (fun n => n + 7) (loop_init globals_init)
      [{ key XK_Return 13 with pam_success := true }, key 97 97]).running = false :=
  have h := C2_return_success_wipes_and_stops (fun n => n + 7) (loop_init globals_init)
    { key XK_Return 13 with pam_success := true } [key 97 97] XK_Return 13 rfl rfl
    (by simp only [loop_init, globals_init, List.length_replicate]) rfl (Or.inl rfl) rfl rfl
  ⟨by simp only [loop_init, globals_init, List.length_replicate],
   h.2.1 3 (by decide), h.2.2.2.2.1, h.2.2.2.2.2.1⟩

/-- C3 as stated fails: on the empty initial buffer a Return key with the verifier
answering failure calls `pam_authenticate` (on the empty password) and sets
`failed`, so the four-part no-op of the claim does not hold. -/
theorem C3_counterexample :
    Effect.pam_authenticate [] ∈
      (main_loop (fun n => n) globals_init true [key XK_Return 13]).g.trace ∧
    (main_loop (fun n => n) globals_init true [key XK_Return 13]).failed = true ∧
    ¬ ((∀ pw, Effect.pam_authenticate pw ∉
          (main_loop (fun n => n) globals_init true [key XK_Return 13]).g.trace) ∧
        (main_loop (fun n => n) globals_init true [key XK_Return 13]).failed = false ∧
        (main_loop (fun n => n) globals_init true [key XK_Return 13]).running = true ∧
        (main_loop (fun n => n) globals_init true [key XK_Return 13]).len = 0) := by
  refine ⟨by decide, by decide, ?_⟩
  intro h
  exact h.1 [] (by decide)

/-- C3 (amended): a Return or KP_Enter key that reaches the switch while `len` is 0
is submitted like any other.  Byte 0 of `password` is set to 0 and
`pam_authenticate` is called once, on the empty password (the trace grows by
the optional DPMS and redraw entries, then this one call, then the wipe on
success); `len` stays 0; when the verifier fails `failed` is set, `running`
is unchanged and the buffer is the old one with byte 0 zeroed; when it
succeeds `running` becomes false and `failed` stays clear. -/
theorem C3_empty_return_calls_verifier (rand : Nat → Nat) (s : LoopState) (i : Input)
    (ksym inputChar : Nat)
    (hlen : s.g.password.length = PASSWORD_SIZE)
    (hempty : s.len = 0)
    (hev : i.event = XEvent.KeyPress ksym inputChar)
    (hk : ksym = XK_Return ∨ ksym = XK_KP_Enter)
    (hreach : i.reaches_switch = true) :
    (main_loop_body rand s i).len = 0 ∧
    (main_loop_body rand s i).g.trace =
      s.g.trace ++ (if s.sleepmode && s.g.using_dpms then [Effect.DPMSForceLevelOff] else [])
        ++ (if i.pending then [] else [Effect.redraw s.failed 0])
        ++ [Effect.pam_authenticate []]
        ++ (if i.pam_success then [Effect.clear_password_memory] else []) ∧
    (i.pam_success = false →
      (main_loop_body rand s i).failed = true ∧
      (main_loop_body rand s i).running = s.running ∧
      (main_loop_body rand s i).g.password = s.g.password.set 0 0) ∧
    (i.pam_success = true →
      (main_loop_body rand s i).failed = false ∧
      (main_loop_body rand s i).running = false) := by
  obtain ⟨s1, hb, hpw, _, hl1, hr1, _, _, _, _, _, _, htr⟩ :=
    main_loop_body_reaches rand s i hreach
  have hcs : cstring (s.g.password.set 0 0) = [] := by
    cases hp : s.g.password with
    | nil => rw [hp] at hlen; simp [PASSWORD_SIZE] at hlen
    | cons a t => simp [cstring]
  rw [hb]
  cases hs : i.pam_success
  · simp [handle_event, hev, key_switch, hk, hs, Globals.emit, hl1, hempty, hpw, hcs, htr, hr1]
  · have hspec := clear_password_memory_spec rand
      (({ s1.g with password := s1.g.password.set s1.len 0 } : Globals).emit
        (Effect.pam_authenticate (cstring (s1.g.password.set s1.len 0))))
      (by simp [Globals.emit, hpw, hlen])
    obtain ⟨_, _, b3, _⟩ := hspec
    simp [handle_event, hev, key_switch, hk, hs, b3]
    simp [Globals.emit, hl1, hempty, hpw, hcs, htr]

/-- C3 (amended) at a concrete input: Return on the empty initial buffer with a
failing verifier. -/
theorem C3_empty_return_calls_verifier_witness :
    (loop_init globals_init).g.password.length = PASSWORD_SIZE ∧
    (main_loop_body (fun n => n) (loop_init globals_init) (key XK_Return 13)).g.trace
      = [Effect.pam_authenticate []] ∧
    (main_loop_body (fun n => n) (loop_init globals_init) (key XK_Return 13)).failed = true :=
  have h := C3_empty_return_calls_verifier (fun n => n) (loop_init globals_init)
    (key XK_Return 13) XK_Return 13
    (by simp only [loop_init, globals_init, List.length_replicate]) rfl rfl (Or.inl rfl) rfl
  ⟨by simp only [loop_init, globals_init, List.length_replicate], h.2.1, (h.2.2.1 rfl).1⟩

/-- C4: from any globals with the 256-byte `password` storage and `len = 0` at loop
entry, after every finite sequence of loop inputs (any events, keysyms and
characters, any verifier, swap and pending outcomes) `len` is at most 255, the
storage still has 256 bytes, so the index `len` of the terminator write on
Return lies inside it; and in such a state with `len = 255` a key outside the
four special keysyms leaves `len` and every stored byte unchanged. -/
theorem C4_capacity_invariant (rand : Nat → Nat) (g : Globals) (first_swap_ok : Bool)
    (inputs : List Input) (hlen : g.password.length = PASSWORD_SIZE) :
    (main_loop rand g first_swap_ok inputs).len ≤ 255 ∧
    (main_loop rand g first_swap_ok inputs).g.password.length = 256 ∧
    (main_loop rand g first_swap_ok inputs).len <
      (main_loop rand g first_swap_ok inputs).g.password.length ∧
    (∀ (i : Input) (ksym c : Nat), i.event = XEvent.KeyPress ksym c →
      (ksym ≠ XK_Return ∧ ksym ≠ XK_KP_Enter ∧ ksym ≠ XK_Escape ∧ ksym ≠ XK_BackSpace) →
      (main_loop rand g first_swap_ok inputs).len = 255 →
      (main_loop_body rand (main_loop rand g first_swap_ok inputs) i).len = 255 ∧
      (main_loop_body rand (main_loop rand g first_swap_ok inputs) i).g.password =
        (main_loop rand g first_swap_ok inputs).g.password) := by
  obtain ⟨h1, h2⟩ := main_loop_inv rand g first_swap_ok inputs hlen
  refine ⟨h2, h1, by rw [h1]; simp only [PASSWORD_SIZE]; omega, ?_⟩
  intro i ksym c hev hk hfull
  have := main_loop_body_full rand _ i ksym c hev hk hfull
  exact ⟨this.1.trans hfull, this.2⟩

/-- C4 at a concrete input: 300 presses of the key a on the initial globals; the
length stops at 255. -/
theorem C4_capacity_invariant_witness :
    globals_init.password.length = PASSWORD_SIZE ∧
    (main_loop (fun n => n) globals_init true (List.replicate 300 (key 97 97))).len = 255 ∧
    (main_loop (fun n => n) globals_init true (List.replicate 300 (key 97 97))).len ≤ 255 ∧
    (main_loop (fun n => n) globals_init true
      (List.replicate 300 (key 97 97))).g.password.length = 256 :=
  have h := C4_capacity_invariant (fun n => n) globals_init true (List.replicate 300 (key 97 97))
    (by simp only [globals_init, List.length_replicate])
  ⟨by simp only [globals_init, List.length_replicate], by decide, h.1, h.2.1⟩

/-- C5: for every sequence of printable-character and BackSpace key events that
reach the switch, applied by `main_loop` to an empty buffer, the first `len`
bytes of `password` are the list the reference stack model yields for the
same operations, and `len` is the length of that list. -/
theorem C5_typing_matches_stack_model (rand : Nat → Nat) (g : Globals) (ins : List Input)
    (hlen : g.password.length = PASSWORD_SIZE)
    (hall : ∀ i ∈ ins, (typing_op i).isSome = true ∧ i.reaches_switch = true) :
    (main_loop rand g true ins).g.password.take (main_loop rand g true ins).len =
      spec_stack (ins.filterMap typing_op) ∧
    (main_loop rand g true ins).len = (spec_stack (ins.filterMap typing_op)).length := by
  have hR : Refines (loop_init g) [] :=
    ⟨by simp [loop_init], rfl, hlen, Nat.zero_le _, rfl, rfl⟩
  have h := main_loop_run_refines rand ins (loop_init g) [] hR hall
  have hm : main_loop rand g true ins = main_loop_run rand (loop_init g) ins := by
    simp [main_loop]
  rw [hm]
  exact ⟨h.1, h.2.1⟩

/-- C5 at the scenario of the specification: typing a, b, c, BackSpace, BackSpace,
x, y yields the contents "axy" and the length 3. -/
theorem C5_typing_matches_stack_model_witness :
    (main_loop (fun n => n) globals_init true
      [key 97 97, key 98 98, key 99 99, key XK_BackSpace 8, key XK_BackSpace 8,
       key 120 120, key 121 121]).g.password.take
      (main_loop (fun n => n) globals_init true
        [key 97 97, key 98 98, key 99 99, key XK_BackSpace 8, key XK_BackSpace 8,
         key 120 120, key 121 121]).len = [97, 120, 121] ∧
    (main_loop (fun n => n) globals_init true
      [key 97 97, key 98 98, key 99 99, key XK_BackSpace 8, key XK_BackSpace 8,
       key 120 120, key 121 121]).len = 3 :=
  C5_typing_matches_stack_model (fun n => n) globals_init
    [key 97 97, key 98 98, key 99 99, key XK_BackSpace 8, key XK_BackSpace 8,
     key 120 120, key 121 121]
    (by simp only [globals_init, List.length_replicate]) (by decide)

/-- C6 as stated fails: BackSpace on the empty buffer followed by the key a leaves
`len = 1`, while max(0, appends - backspaces) = max(0, 1 - 1) = 0, whether the
clip is at 256 or at 255. -/
theorem C6_counterexample :
    (main_loop (fun n => n) globals_init true [key XK_BackSpace 8, key 97 97]).len = 1 ∧
    [key XK_BackSpace 8, key 97 97].filterMap typing_op = [BufOp.backspace, BufOp.append 97] ∧
    spec_length_formula 256 [BufOp.backspace, BufOp.append 97] = 0 ∧
    spec_length_formula 255 [BufOp.backspace, BufOp.append 97] = 0 ∧
    ((main_loop (fun n => n) globals_init true [key XK_BackSpace 8, key 97 97]).len : Int) ≠
      spec_length_formula 256 ([key XK_BackSpace 8, key 97 97].filterMap typing_op) := by
  refine ⟨by decide, by decide, by decide, by decide, by decide⟩

/-- C6 (amended): for every sequence of printable-character and BackSpace key
events that reach the switch, applied by `main_loop` to an empty buffer, the
length is the count clipped after every operation (an append adds one unless
the length is 255, a backspace takes one away unless the length is 0); and
when in every prefix of the sequence the backspaces do not outnumber the
appends and the appends exceed the backspaces by at most 255, the length is
appends minus backspaces. -/
theorem C6_length_is_stepwise_clipped (rand : Nat → Nat) (g : Globals) (ins : List Input)
    (hlen : g.password.length = PASSWORD_SIZE)
    (hall : ∀ i ∈ ins, (typing_op i).isSome = true ∧ i.reaches_switch = true) :
    (main_loop rand g true ins).len = stepwise_length (ins.filterMap typing_op) ∧
    ((∀ k, count_backspaces ((ins.filterMap typing_op).take k) ≤
              count_appends ((ins.filterMap typing_op).take k) ∧
           count_appends ((ins.filterMap typing_op).take k) ≤
              count_backspaces ((ins.filterMap typing_op).take k) + 255) →
      ((main_loop rand g true ins).len : Int) =
        (count_appends (ins.filterMap typing_op) : Int) -
          (count_backspaces (ins.filterMap typing_op) : Int)) := by
  have hR : Refines (loop_init g) [] :=
    ⟨by simp [loop_init], rfl, hlen, Nat.zero_le _, rfl, rfl⟩
  have h := main_loop_run_refines rand ins (loop_init g) [] hR hall
  have hm : main_loop rand g true ins = main_loop_run rand (loop_init g) ins := by
    simp [main_loop]
  have hstep : (main_loop rand g true ins).len = stepwise_length (ins.filterMap typing_op) := by
    rw [hm, h.2.1, spec_stack_length_from]
    rfl
  refine ⟨hstep, ?_⟩
  intro hpre
  have hex := length_step_exact (ins.filterMap typing_op) 0 (by
    intro k
    have := hpre k
    omega)
  rw [hstep]
  unfold stepwise_length
  omega

/-- C6 (amended) at concrete inputs: the keys a, b, BackSpace give the length
1 = 2 - 1, every prefix keeping the difference within 0 .. 255. -/
theorem C6_length_is_stepwise_clipped_witness :
    globals_init.password.length = PASSWORD_SIZE ∧
    (main_loop (fun n => n) globals_init true
      [key 97 97, key 98 98, key XK_BackSpace 8]).len = 1 ∧
    ((main_loop (fun n => n) globals_init true
      [key 97 97, key 98 98, key XK_BackSpace 8]).len : Int) = 2 - 1 :=
  have h := C6_length_is_stepwise_clipped (fun n => n) globals_init
    [key 97 97, key 98 98, key XK_BackSpace 8]
    (by simp only [globals_init, List.length_replicate]) (by decide)
  ⟨by simp only [globals_init, List.length_replicate], h.1,
   h.2 (by
    intro k
    rcases k with _ | _ | _ | k
    · decide
    · decide
    · decide
    · have e : (List.filterMap typing_op [key 97 97, key 98 98, key XK_BackSpace 8]).take
          (k + 1 + 1 + 1) = [BufOp.append 97, BufOp.append 98, BufOp.backspace] := by
        have e0 : List.filterMap typing_op [key 97 97, key 98 98, key XK_BackSpace 8]
            = [BufOp.append 97, BufOp.append 98, BufOp.backspace] := by decide
        rw [e0]
        simp
      rw [e]
      decide)⟩

/-- C7 as stated fails at n = 0: with no prompts `conv_callback` returns
`PAM_BUF_ERR` and produces no response array, instead of returning success
with an array of 0 entries. -/
theorem C7_counterexample :
    conv_callback [97, 0] true (fun _ => true) [] = ConvOutcome.returned PAM_BUF_ERR none ∧
    conv_callback [97, 0] true (fun _ => true) [] ≠ ConvOutcome.returned PAM_SUCCESS (some []) := by
  refine ⟨by decide, by decide⟩

/-- C7 (amended): with every allocation succeeding and `password` holding a NUL,
`conv_callback` returns `PAM_BUF_ERR` without a response array for zero
prompts; and for a prompt sequence of length n >= 1 whose prompts after the
first are neither echo-on nor echo-off it returns `PAM_SUCCESS` with a
response array of exactly n entries, entry 0 holding a copy of the current
password when prompt 0 is echo-on or echo-off and no response otherwise, all
later entries holding no response. -/
theorem C7_conv_callback_responses (password : List Nat) (strdup_ok : Nat → Bool)
    (style : Int) (rest : List Int)
    (hnul : 0 ∈ password)
    (halloc : ∀ i, strdup_ok i = true)
    (hrest : ∀ t ∈ rest, t ≠ PAM_PROMPT_ECHO_OFF ∧ t ≠ PAM_PROMPT_ECHO_ON) :
    conv_callback password true strdup_ok [] = ConvOutcome.returned PAM_BUF_ERR none ∧
    conv_callback password true strdup_ok (style :: rest) =
      ConvOutcome.returned PAM_SUCCESS
        (some ({ resp := if style = PAM_PROMPT_ECHO_OFF ∨ style = PAM_PROMPT_ECHO_ON
                         then some (cstring password) else none,
                 resp_retcode := 0 } ::
               List.replicate rest.length { resp := none, resp_retcode := 0 })) ∧
    ({ resp := if style = PAM_PROMPT_ECHO_OFF ∨ style = PAM_PROMPT_ECHO_ON
               then some (cstring password) else none,
       resp_retcode := 0 } ::
      List.replicate rest.length ({ resp := none, resp_retcode := 0 } : pam_response)).length
      = (style :: rest).length := by
  refine ⟨rfl, ?_, by simp⟩
  unfold conv_callback
  rw [if_neg (by simp)]
  simp only [Bool.not_true, Bool.false_eq_true, if_false, List.length_cons,
    List.replicate_succ]
  unfold conv_loop
  by_cases hs : style = PAM_PROMPT_ECHO_OFF ∨ style = PAM_PROMPT_ECHO_ON
  · have hn : ¬ (style ≠ PAM_PROMPT_ECHO_OFF ∧ style ≠ PAM_PROMPT_ECHO_ON) := by
      intro h
      rcases hs with hs | hs
      · exact h.1 hs
      · exact h.2 hs
    rw [if_neg hn, if_neg (by simp), if_neg (by simpa using hnul), if_pos (halloc 0), if_pos hs]
    exact conv_loop_no_echo password strdup_ok rest _ _ hrest
  · have hn : style ≠ PAM_PROMPT_ECHO_OFF ∧ style ≠ PAM_PROMPT_ECHO_ON :=
      ⟨fun h => hs (Or.inl h), fun h => hs (Or.inr h)⟩
    rw [if_pos hn, if_neg hs]
    exact conv_loop_no_echo password strdup_ok rest _ _ hrest

/-- C7 (amended) at a concrete input: the password "a", an echo-off prompt followed
by a text-info message. -/
theorem C7_conv_callback_responses_witness :
    (0 ∈ [97, 0]) ∧
    conv_callback [97, 0] true (fun _ => true) [PAM_PROMPT_ECHO_OFF, PAM_TEXT_INFO] =
      ConvOutcome.returned PAM_SUCCESS
        (some [{ resp := some [97], resp_retcode := 0 }, { resp := none, resp_retcode := 0 }]) :=
  have h := C7_conv_callback_responses [97, 0] (fun _ => true) PAM_PROMPT_ECHO_OFF
    [PAM_TEXT_INFO] (by decide) (fun _ => rfl) (by decide)
  ⟨by decide, h.2.1⟩

/-- C8, evaluated on the code: after the key a has been typed with DPMS in use, a
terminating signal makes `handle_signal` restore the DPMS timeouts, print
its message and exit; the trace holds no wipe between the restore and the
exit, `rand` has not been called and `password` still starts with the typed
byte when the process exits. -/
theorem C8_signal_exit_skips_wipe :
    (handle_signal
      (main_loop (fun n => n) { globals_init with using_dpms := true } true [key 97 97]).g
      15).trace
      = [Effect.DPMSSetTimeouts 600 600 600, Effect.fprintf_stderr, Effect.exit 1] ∧
    Effect.clear_password_memory ∉ (handle_signal
      (main_loop (fun n => n) { globals_init with using_dpms := true } true [key 97 97]).g
      15).trace ∧
    (handle_signal
      (main_loop (fun n => n) { globals_init with using_dpms := true } true [key 97 97]).g
      15).password[0]? = some 97 ∧
    (handle_signal
      (main_loop (fun n => n) { globals_init with using_dpms := true } true [key 97 97]).g
      15).rand_calls = 0 ∧
    (handle_signal
      (main_loop (fun n => n) { globals_init with using_dpms := true } true [key 97 97]).g
      15).exit_status = some EXIT_FAILURE := by
  refine ⟨by decide, by decide, by decide, by decide, by decide⟩

/-- C9: for every `int` b > 0 and every x with -b <= x < 2b, `wrap(x, b)` lies in
[0, b) and is congruent to x modulo b. -/
theorem C9_wrap_range_and_congruence (x b : Int) (hb : 0 < b) (hbmax : b ≤ INT_MAX)
    (hlo : -b ≤ x) (hhi : x < 2 * b) :
    0 ≤ wrap x b ∧ wrap x b < b ∧ wrap x b ≡ x [ZMOD b] := by
  simp only [INT_MAX] at hbmax
  unfold wrap
  split
  · have e : to_int32 (x + b) = x + b := by unfold to_int32; omega
    rw [e]
    refine ⟨by omega, by omega, ?_⟩
    simp [Int.ModEq]
  · split
    · have e : to_int32 (x - b) = x - b := by unfold to_int32; omega
      rw [e]
      refine ⟨by omega, by omega, ?_⟩
      simp [Int.ModEq, Int.sub_emod]
    · exact ⟨by omega, by omega, Int.ModEq.refl x⟩

/-- C9 at concrete inputs: wrap(-3, 5) = 2 and wrap(7, 5) = 2. -/
theorem C9_wrap_range_and_congruence_witness :
    wrap (-3) 5 = 2 ∧ wrap 7 5 = 2 ∧ (0 ≤ wrap (-3) 5 ∧ wrap (-3) 5 < 5 ∧ wrap (-3) 5 ≡ -3 [ZMOD 5]) :=
  ⟨by decide, by decide,
   C9_wrap_range_and_congruence (-3) 5 (by decide) (by decide) (by decide) (by decide)⟩

/-- C10: for every r and add in 0..255, `brighten(r, add)` computed in 32-bit
unsigned arithmetic with truncating division satisfies
r <= brighten(r, add) <= 255; the value r - floor(r*add/255) + add (where the
subtraction does not go below 0) never exceeds 255 and is what `brighten`
returns, so the cast to `uint8_t` loses nothing. -/
theorem C10_brighten_range (r add : Nat) (hr : r < 256) (ha : add < 256) :
    r ≤ brighten r add ∧ brighten r add ≤ 255 ∧
    r * add / 255 ≤ r ∧ r - r * add / 255 + add ≤ 255 ∧
    brighten r add = r - r * add / 255 + add := by
  obtain ⟨h1, h2, h3, h4⟩ := brighten_eq r add hr ha
  rw [h4]
  refine ⟨by omega, by omega, h1, by omega, rfl⟩

/-- C10 at concrete inputs: brighten(200, 37) = 208. -/
theorem C10_brighten_range_witness :
    brighten 200 37 = 208 ∧ 200 ≤ brighten 200 37 ∧ brighten 200 37 ≤ 255 :=
  have h := C10_brighten_range 200 37 (by decide) (by decide)
  ⟨by decide, h.1, h.2.1⟩

/-- C11: for every r in 0..255 and all add1 <= add2 in 0..255,
brighten(r, add1) <= brighten(r, add2). -/
theorem C11_brighten_monotone_in_add (r add1 add2 : Nat) (hr : r < 256)
    (h12 : add1 ≤ add2) (h2 : add2 < 256) :
    brighten r add1 ≤ brighten r add2 := by
  obtain ⟨a1, _, _, a4⟩ := brighten_eq r add1 hr (by omega)
  obtain ⟨b1, _, _, b4⟩ := brighten_eq r add2 hr h2
  have hstep := brighten_quotient_step r add1 (add2 - add1) hr
  have e : add1 + (add2 - add1) = add2 := by omega
  rw [e] at hstep
  rw [a4, b4]
  omega

/-- C11 at concrete inputs: brighten(200, 37) = 208 <= brighten(200, 38) = 209. -/
theorem C11_brighten_monotone_in_add_witness :
    brighten 200 37 = 208 ∧ brighten 200 38 = 209 ∧ brighten 200 37 ≤ brighten 200 38 :=
  ⟨by decide, by decide,
   C11_brighten_monotone_in_add 200 37 38 (by decide) (by decide) (by decide)⟩

/-- C12 as stated fails: on the table 10, 20, 30 with a fresh cursor the first
three calls of `nrandf` return 20, 30, 10; the first call does not return
table[0]. -/
theorem C12_counterexample :
    nrandf_call (noise_init [10, 20, 30]) 1 = some 20 ∧
    nrandf_call (noise_init [10, 20, 30]) 2 = some 30 ∧
    nrandf_call (noise_init [10, 20, 30]) 3 = some 10 ∧
    nrandf_call (noise_init [10, 20, 30]) 1 ≠ [10, 20, 30][0]? := by
  refine ⟨by decide, by decide, by decide, by decide⟩

/-- C12 (amended): for a table of size N > 0 and a fresh cursor, call number k >= 1
of `nrandf` returns table[k mod N], an entry of the table: the first N calls
return table[1], ..., table[N-1], table[0], every entry once, and call number
k + N returns what call number k returned; the cursor stays in [0, N) and the
table is never changed. -/
theorem C12_nrandf_cycle {α : Type} (table : List α) (k : Nat)
    (hN : 0 < table.length) (hk : 1 ≤ k) :
    nrandf_call (noise_init table) k = table[k % table.length]? ∧
    (nrandf_call (noise_init table) k).isSome = true ∧
    (k < table.length → nrandf_call (noise_init table) k = table[k]?) ∧
    nrandf_call (noise_init table) table.length = table[0]? ∧
    nrandf_call (noise_init table) (k + table.length) = nrandf_call (noise_init table) k ∧
    (nrandf_state (noise_init table) k).start < table.length ∧
    (nrandf_state (noise_init table) k).rnjesus = table := by
  have hc := nrandf_call_spec table k hk
  have hst := nrandf_state_spec table k
  refine ⟨hc, ?_, ?_, ?_, ?_, ?_, hst.1⟩
  · rw [hc]
    have hlt : k % table.length < table.length := Nat.mod_lt _ hN
    rw [List.getElem?_eq_getElem hlt]
    rfl
  · intro hlt
    rw [hc, Nat.mod_eq_of_lt hlt]
  · rw [nrandf_call_spec table table.length hN, Nat.mod_self]
  · rw [nrandf_call_spec table (k + table.length) (by omega), hc, Nat.add_mod_right]
  · rw [hst.2]
    exact Nat.mod_lt _ hN

/-- C12 (amended) at a concrete input: the fourth call on the table 10, 20, 30
returns 20 again. -/
theorem C12_nrandf_cycle_witness :
    nrandf_call (noise_init [10, 20, 30]) 4 = some 20 ∧
    nrandf_call (noise_init [10, 20, 30]) (4 + 3) = nrandf_call (noise_init [10, 20, 30]) 4 ∧
    (nrandf_state (noise_init [10, 20, 30]) 4).start < 3 :=
  have h := C12_nrandf_cycle [10, 20, 30] 4 (by decide) (by decide)
  ⟨h.1, h.2.2.2.2.1, h.2.2.2.2.2.1⟩

/-- C13, evaluated on the code: on a 12 by 1 ramp image with every noise sample 0
(so that `offx = meanabber = 10`), the red sample of pixel 2 (byte 10 of the
output) is read at the displaced position pixel 0, which stage 3 has already
visited.  The output holds 80 there, the value stage 2 left in `buf2`, and
not 63, the value stage 3 wrote to pixel 0 of its destination; running
stage 3 with source and destination both `buf2` on the same stage 2 output
yields 63. -/
theorem C13_stage3_reads_stage2_output :
    (corrupt_it ramp12 (List.replicate 48 0) (List.replicate 48 0) 12 1 quiet1 quiet2
        quiet3).map (fun out => (out.real_src[10]?, out.buf2[2]?, out.real_src[2]?))
      = some (some 80, some 80, some 63) ∧
    ((corrupt_it ramp12 (List.replicate 48 0) (List.replicate 48 0) 12 1 quiet1 quiet2
        quiet3).bind (fun out => pass3 12 1 BufId.buf2 BufId.buf2 quiet3 out)).map
        (fun out => (out.buf2[10]?, out.buf2[2]?))
      = some (some 63, some 63) := by
  refine ⟨by decide, by decide⟩

/-- C14 as stated fails.  `wrap` folds once only: in stage 3 on an image 4 pixels
wide, pixel (0, 0) with the aberration noise 0 has `offx = 10`, the wrapped
coordinate wrap(10, 4) = 6 is not below 4, the red byte index 26 is not below
4*4*1 = 16, and the pixel body reads outside the buffer; in stage 1 on an
image 100 pixels wide, pixel x = 99 with offset 150 gives wrap(249, 100) = 149
and pixel x = 0 with offset -250 gives -150.  And the `int` index arithmetic
overflows on large images: at width 32767, pixel (0, 16385), the green index
of stage 3, which involves no offset, is negative. -/
theorem C14_counterexample :
    wrap (to_int32 (0 + pass3_offx 0)) 4 = 6 ∧ ¬ (wrap (to_int32 (0 + pass3_offx 0)) 4 < 4) ∧
    pass3_ra_idx 4 0 0 (pass3_offx 0) + 2 = 26 ∧
    ¬ (pass3_ra_idx 4 0 0 (pass3_offx 0) + 2 < 4 * 4 * 1) ∧
    pass3_pixel 4 BufId.buf2 BufId.real_src 0 0 0
      { real_src := List.replicate 16 0, buf1 := List.replicate 16 0,
        buf2 := List.replicate 16 0 } = none ∧
    wrap (to_int32 (99 + 150)) 100 = 149 ∧ ¬ (wrap (to_int32 (99 + 150)) 100 < 100) ∧
    wrap (to_int32 (0 + (-250))) 100 = -150 ∧ ¬ (0 ≤ wrap (to_int32 (0 + (-250))) 100) ∧
    pass3_g_idx 32767 0 16385 = -2147418116 ∧ ¬ (0 ≤ pass3_g_idx 32767 0 16385) := by
  refine ⟨by decide, by decide, by decide, by decide, by decide, by decide, by decide,
    by decide, by decide, by decide, by decide⟩

/-- C14 (amended): for every width w >= 1 and height h >= 1 with 4*w*h within
`int` and every pixel (x, y) of the image, whenever an unwrapped source
coordinate of one of the three stages, as the code computes it in `int`
arithmetic, lies in the range `wrap` assumes, [-w, 2w) horizontally and
[-h, 2h) vertically, the wrapped coordinate lies in [0, w), respectively
[0, h), and the four byte indices of the source pixel, again as computed in
`int` arithmetic, lie in [0, 4wh).  The unwrapped coordinates are
x + (jitter + line offset + skew) and y + jitter in stage 1, x + lag - offset,
x + lag and x + lag + offset in stage 2, x + offx and x - offx with
offx = meanabber + noise in stage 3; the green index of stage 3 uses x itself
and is always in range. -/
theorem C14_fold_range_coordinates (w h x y : Int)
    (jitter_x line_off stride_off jitter_y lr lg lb offx2 off3 : Int)
    (hw : 0 < w) (hh : 0 < h) (hsize : 4 * w * h ≤ INT_MAX)
    (hx0 : 0 ≤ x) (hx1 : x < w) (hy0 : 0 ≤ y) (hy1 : y < h) :
    (-w ≤ to_int32 (x + pass1_offx jitter_x line_off stride_off) →
      to_int32 (x + pass1_offx jitter_x line_off stride_off) < 2 * w →
      -h ≤ to_int32 (y + jitter_y) → to_int32 (y + jitter_y) < 2 * h →
      0 ≤ wrap (to_int32 (x + pass1_offx jitter_x line_off stride_off)) w ∧
      wrap (to_int32 (x + pass1_offx jitter_x line_off stride_off)) w < w ∧
      0 ≤ wrap (to_int32 (y + jitter_y)) h ∧ wrap (to_int32 (y + jitter_y)) h < h ∧
      0 ≤ pass1_src_idx w h x y (pass1_offx jitter_x line_off stride_off) jitter_y ∧
      pass1_src_idx w h x y (pass1_offx jitter_x line_off stride_off) jitter_y + 3
        < 4 * w * h) ∧
    (-w ≤ to_int32 (to_int32 (x + lr) - offx2) → to_int32 (to_int32 (x + lr) - offx2) < 2 * w →
      0 ≤ wrap (to_int32 (to_int32 (x + lr) - offx2)) w ∧
      wrap (to_int32 (to_int32 (x + lr) - offx2)) w < w ∧
      0 ≤ pass2_ra_idx w x y lr offx2 ∧ pass2_ra_idx w x y lr offx2 + 3 < 4 * w * h) ∧
    (-w ≤ to_int32 (x + lg) → to_int32 (x + lg) < 2 * w →
      0 ≤ wrap (to_int32 (x + lg)) w ∧ wrap (to_int32 (x + lg)) w < w ∧
      0 ≤ pass2_g_idx w x y lg ∧ pass2_g_idx w x y lg + 3 < 4 * w * h) ∧
    (-w ≤ to_int32 (to_int32 (x + lb) + offx2) → to_int32 (to_int32 (x + lb) + offx2) < 2 * w →
      0 ≤ wrap (to_int32 (to_int32 (x + lb) + offx2)) w ∧
      wrap (to_int32 (to_int32 (x + lb) + offx2)) w < w ∧
      0 ≤ pass2_b_idx w x y lb offx2 ∧ pass2_b_idx w x y lb offx2 + 3 < 4 * w * h) ∧
    (-w ≤ to_int32 (x + pass3_offx off3) → to_int32 (x + pass3_offx off3) < 2 * w →
      0 ≤ wrap (to_int32 (x + pass3_offx off3)) w ∧
      wrap (to_int32 (x + pass3_offx off3)) w < w ∧
      0 ≤ pass3_ra_idx w x y (pass3_offx off3) ∧
      pass3_ra_idx w x y (pass3_offx off3) + 3 < 4 * w * h) ∧
    (-w ≤ to_int32 (x - pass3_offx off3) → to_int32 (x - pass3_offx off3) < 2 * w →
      0 ≤ wrap (to_int32 (x - pass3_offx off3)) w ∧
      wrap (to_int32 (x - pass3_offx off3)) w < w ∧
      0 ≤ pass3_b_idx w x y (pass3_offx off3) ∧
      pass3_b_idx w x y (pass3_offx off3) + 3 < 4 * w * h) ∧
    (0 ≤ pass3_g_idx w x y ∧ pass3_g_idx w x y + 3 < 4 * w * h) := by
  obtain ⟨hwmax, hhmax⟩ := width_le_int_max w h hw hh hsize
  have key : ∀ c : Int, -w ≤ c → c < 2 * w →
      0 ≤ wrap c w ∧ wrap c w < w ∧
      0 ≤ byte_index w y (wrap c w) ∧ byte_index w y (wrap c w) + 3 < 4 * w * h := by
    intro c h1 h2
    obtain ⟨a1, a2⟩ := wrap_folds c w hw hwmax h1 h2
    obtain ⟨_, b1, b2⟩ := byte_index_bound w h y (wrap c w) hw hsize hy0 hy1 a1 a2
    exact ⟨a1, a2, b1, b2⟩
  refine ⟨?_, ?_, ?_, ?_, ?_, ?_, ?_⟩
  · intro h1 h2 h3 h4
    obtain ⟨a1, a2⟩ := wrap_folds _ w hw hwmax h1 h2
    obtain ⟨a3, a4⟩ := wrap_folds _ h hh hhmax h3 h4
    obtain ⟨_, b1, b2⟩ := byte_index_bound w h _ _ hw hsize a3 a4 a1 a2
    exact ⟨a1, a2, a3, a4, b1, b2⟩
  · intro h1 h2; exact key _ h1 h2
  · intro h1 h2; exact key _ h1 h2
  · intro h1 h2; exact key _ h1 h2
  · intro h1 h2; exact key _ h1 h2
  · intro h1 h2; exact key _ h1 h2
  · obtain ⟨_, b1, b2⟩ := byte_index_bound w h y x hw hsize hy0 hy1 hx0 hx1
    exact ⟨b1, b2⟩

/-- C14 (amended) at a concrete input: width 12, height 1, pixel (2, 0), no noise;
the red sample of stage 3 is read at wrap(12, 12) = 0, byte index 0. -/
theorem C14_fold_range_coordinates_witness :
    wrap (to_int32 (2 + pass3_offx 0)) 12 = 0 ∧
    (0 ≤ wrap (to_int32 (2 + pass3_offx 0)) 12 ∧ wrap (to_int32 (2 + pass3_offx 0)) 12 < 12 ∧
      0 ≤ pass3_ra_idx 12 2 0 (pass3_offx 0) ∧
      pass3_ra_idx 12 2 0 (pass3_offx 0) + 3 < 4 * 12 * 1) :=
  have h := C14_fold_range_coordinates 12 1 2 0 0 0 0 0 (-7) 0 3 0 0 (by decide) (by decide)
    (by decide) (by decide) (by decide) (by decide) (by decide)
  ⟨by decide, h.2.2.2.2.1 (by decide) (by decide)⟩

/-- C15 as stated fails: with `passdisp` filled with the default character `*`
(byte 42), hide-length on and `len = 252`, `lendisp` is 252 + 4 = 256 and
`XDrawString` is asked for 256 % 256 = 0 glyphs, not for a number in
[252, 256]; this holds whether `char` is signed or not. -/
theorem C15_counterexample :
    lendisp true true (fill_passdisp [42] (List.replicate 256 0)) 252 = some 256 ∧
    drawn_glyphs true true (fill_passdisp [42] (List.replicate 256 0)) 252 = some 0 ∧
    drawn_glyphs false true (fill_passdisp [42] (List.replicate 256 0)) 252 = some 0 ∧
    drawn_glyphs true true (fill_passdisp [42] (List.replicate 256 0)) 252
      ≠ some (252 + (42 * 252) % 5) := by
  rw [fill_passdisp_star]
  refine ⟨by decide, by decide, by decide, by decide⟩

/-- C15 (amended): for a 256-byte `passdisp` and `len <= 255`, the number of glyphs
`XDrawString` is asked to draw is `lendisp % 256`.  With hide-length off or
`len = 0` it is `len`.  With hide-length on and `len >= 1`, `lendisp` is
`len + p` where p = (passdisp[len] * len) % 5, computed in `unsigned int`
arithmetic on the `char` value, lies in [0, 4]; p is (byte * len) mod 5 on the
byte value when the byte is below 128 or `char` is unsigned; the number drawn
is `len + p`, within [len, len + 4], whenever `len + p <= 255`, and
`len + p - 256` otherwise. -/
theorem C15_indicator_length (cs hl : Bool) (passdisp : List Nat) (len : Nat)
    (hpd : passdisp.length = 256) (hbytes : ∀ b ∈ passdisp, b < 256) (hlen : len ≤ 255) :
    ((hl = false ∨ len = 0) → drawn_glyphs cs hl passdisp len = some len) ∧
    (hl = true → 1 ≤ len →
      ∃ b p, passdisp[len]? = some b ∧
        p = (char_to_uint cs b * len % UINT32_MOD) % 5 ∧ p ≤ 4 ∧
        lendisp cs hl passdisp len = some (len + p) ∧
        drawn_glyphs cs hl passdisp len = some ((len + p) % 256) ∧
        (len + p ≤ 255 → drawn_glyphs cs hl passdisp len = some (len + p)) ∧
        (256 ≤ len + p → drawn_glyphs cs hl passdisp len = some (len + p - 256)) ∧
        ((cs = false ∨ b < 128) → p = (b * len) % 5)) := by
  constructor
  · intro h
    have hc : (hl && decide (len > 0)) = false := by
      rcases h with h | h
      · simp [h]
      · simp [h]
    unfold drawn_glyphs lendisp
    rw [if_neg (by simp [hc])]
    simp only
    rw [Nat.mod_eq_of_lt (by omega)]
  · intro hhl h1
    subst hhl
    obtain ⟨b, hb, hmem, hl1⟩ := lendisp_eval cs passdisp len hpd hlen h1
    have hb256 := hbytes b hmem
    refine ⟨b, (char_to_uint cs b * len % UINT32_MOD) % 5, hb, rfl, ?_, hl1, ?_, ?_, ?_, ?_⟩
    · have := Nat.mod_lt (char_to_uint cs b * len % UINT32_MOD) (by decide : 0 < 5)
      omega
    · unfold drawn_glyphs
      rw [hl1]
    · intro hle
      unfold drawn_glyphs
      rw [hl1]
      simp only
      rw [Nat.mod_eq_of_lt (by omega)]
    · intro hge
      have hp := Nat.mod_lt (char_to_uint cs b * len % UINT32_MOD) (by decide : 0 < 5)
      unfold drawn_glyphs
      rw [hl1]
      simp only
      congr 1
      omega
    · intro hcase
      have hu : char_to_uint cs b = b := by
        unfold char_to_uint
        rcases hcase with hc | hc
        · simp [hc]
        · rw [if_neg]
          simp
          intro _
          omega
      rw [hu]
      have hlt : b * len < UINT32_MOD := by
        have : b * len ≤ 255 * 255 := Nat.mul_le_mul (by omega) hlen
        simp only [UINT32_MOD]
        omega
      rw [Nat.mod_eq_of_lt hlt]

/-- C15 (amended) at a concrete input: the default `*` buffer, hide-length on, three
characters typed: 3 + (42 * 3) % 5 = 4 glyphs. -/
theorem C15_indicator_length_witness :
    (List.replicate 256 42).length = 256 ∧
    drawn_glyphs true true (List.replicate 256 42) 3 = some 4 ∧
    drawn_glyphs true false (List.replicate 256 42) 3 = some 3 :=
  have h := C15_indicator_length true true (List.replicate 256 42) 3
    (List.length_replicate 256 42)
    (fun b hb => by rw [List.eq_of_mem_replicate hb]; decide) (by decide)
  have h0 := C15_indicator_length true false (List.replicate 256 42) 3
    (List.length_replicate 256 42)
    (fun b hb => by rw [List.eq_of_mem_replicate hb]; decide) (by decide)
  ⟨List.length_replicate 256 42,
   by
    obtain ⟨b, p, hb, hp, _, _, hd, _⟩ := h.2 rfl (by decide)
    have hb42 : b = 42 := by
      have : (List.replicate 256 42)[3]? = some 42 := by decide
      rw [this] at hb
      exact (Option.some.inj hb).symm
    subst hb42
    rw [hd, hp]
    decide,
   h0.1 (Or.inl rfl)⟩

end Sxlock
